import Mathlib

/-!
Shallow embedding of the constraint-evaluation core of the `rust-ephem`
repository (src/src/constraints.rs, src/src/constraints/*.rs,
src/src/utils/vector_math.rs, src/src/utils/moon.rs), with theorems that
settle the frozen claims C1..C10 about it.

Modelling conventions:
* Rust `f64` arithmetic is modelled by exact real arithmetic (`ℝ`); where a
  claim is about non-finite values (NaN/infinity) the affected computation is
  modelled over `Option ℝ` (`none` = non-finite) or `EReal` (`⊤` = +infinity).
* `ndarray::Array2` rows indexed by time are modelled as functions `ℕ → 𝕍3`.
* Strings produced only for human-readable descriptions carry no program
  logic; the window structure is polymorphic in the description type so that
  evaluator instances can use `Unit` there.
-/

open Real

noncomputable section

/-- 3-vectors `[f64; 3]` (km). -/
abbrev Vec3 : Type := ℝ × ℝ × ℝ

/-- `f64::clamp(self, lo, hi)`: `if self < lo { lo } else if self > hi { hi } else { self }`,
which for `lo ≤ hi` equals `max lo (min self hi)`. -/
def fclamp (x lo hi : ℝ) : ℝ := max lo (min x hi)

/-- `radec_to_unit_vector` (src/utils/vector_math.rs:14 and constraints.rs:1058). -/
def radec_to_unit_vector (ra_deg dec_deg : ℝ) : Vec3 :=
  let ra_rad := ra_deg * (π / 180)
  let dec_rad := dec_deg * (π / 180)
  let cos_dec := Real.cos dec_rad
  (cos_dec * Real.cos ra_rad, cos_dec * Real.sin ra_rad, Real.sin dec_rad)

/-- `vector_magnitude` (src/utils/vector_math.rs:60). -/
def vector_magnitude (v : Vec3) : ℝ :=
  Real.sqrt (v.1 * v.1 + v.2.1 * v.2.1 + v.2.2 * v.2.2)

/-- `normalize_vector` (src/utils/vector_math.rs:32): divides by the magnitude,
returning the zero vector when the magnitude is not positive. -/
def normalize_vector (v : Vec3) : Vec3 :=
  let mag := vector_magnitude v
  if mag > 0 then (v.1 / mag, v.2.1 / mag, v.2.2 / mag) else (0, 0, 0)

/-- `dot_product` (src/utils/vector_math.rs:49). -/
def dot_product (a b : Vec3) : ℝ :=
  a.1 * b.1 + a.2.1 * b.2.1 + a.2.2 * b.2.2

/-- Componentwise difference `body_position - observer_position`. -/
def vsub (a b : Vec3) : Vec3 := (a.1 - b.1, a.2.1 - b.2.1, a.2.2 - b.2.2)

/-- `calculate_angular_separation` (src/utils/vector_math.rs:76-89): direction
from observer to body, normalised, dotted with the target unit vector, the
cosine clamped to `[-1, 1]` before `acos`, converted to degrees. -/
def calculate_angular_separation (target_vec body_position observer_position : Vec3) : ℝ :=
  let body_unit := normalize_vector (vsub body_position observer_position)
  let cos_angle := dot_product target_vec body_unit
  Real.arccos (fclamp cos_angle (-1) 1) * (180 / π)

/-! ## The violation-windowing scan

`SunProximityEvaluator::evaluate` (src/constraints.rs:240-322) runs the scan
inline; the same loop shape is shared by every evaluator (`track_violations`).
It is embedded here once, abstracted over the per-index `sample` closure and
the two description closures, exactly as the source loop is written. -/

/-- `ConstraintViolation` (src/constraints.rs:23-36): one violation window.
`τ` is the timestamp type, `δ` the (logic-free) description payload. -/
structure ConstraintViolation (τ : Type) (δ : Type) where
  start_time : τ
  end_time : τ
  max_severity : ℝ
  description : δ


/-- `ConstraintResult` (src/constraints.rs:51-64). -/
structure ConstraintResult (τ : Type) (δ : Type) where
  violations : List (ConstraintViolation τ δ)
  all_satisfied : Bool
  times : List τ


/-- Scan state: windows already closed, plus `current_violation : Option<(usize, f64)>`
holding the open window's start index and running max severity. -/
abbrev ScanState (τ δ : Type) := List (ConstraintViolation τ δ) × Option (ℕ × ℝ)

/-- One iteration of the loop body of `SunProximityEvaluator::evaluate`
(src/constraints.rs:255-303) at index `i`. -/
def trackStep [Inhabited τ] (times : List τ) (sample : ℕ → Bool × ℝ) (descMid : ℕ → δ)
    (st : ScanState τ δ) (i : ℕ) : ScanState τ δ :=
  let s := sample i
  if s.1 then
    match st.2 with
    | some (start_idx, max_sev) => (st.1, some (start_idx, max max_sev s.2))
    | none => (st.1, some (i, s.2))
  else
    match st.2 with
    | some (start_idx, max_severity) =>
        (st.1 ++ [⟨times.getD start_idx default, times.getD (i - 1) default,
                   max_severity, descMid i⟩], none)
    | none => st

/-- The full scan of `SunProximityEvaluator::evaluate` (src/constraints.rs:249-313):
fold the loop body over indices `0..times.len()`, then close any window still
open at the end with `end = times[times.len() - 1]` and the final description. -/
def track_violations [Inhabited τ] (times : List τ) (sample : ℕ → Bool × ℝ)
    (descMid : ℕ → δ) (descFinal : δ) : List (ConstraintViolation τ δ) :=
  let st := (List.range times.length).foldl (trackStep times sample descMid) ([], none)
  match st.2 with
  | some (start_idx, max_severity) =>
      st.1 ++ [⟨times.getD start_idx default, times.getD (times.length - 1) default,
                max_severity, descFinal⟩]
  | none => st.1

/-! ## Sun proximity evaluator (src/constraints.rs:203-365) -/

/-- `SunProximityEvaluator` configuration (src/constraints.rs:234-237). -/
structure SunProximityEvaluator where
  min_angle_deg : ℝ
  max_angle_deg : Option ℝ

/-- The angular separation computed per index in
`SunProximityEvaluator::evaluate` (src/constraints.rs:256-268): Sun position
relative to observer, normalised, dotted with the target vector, clamped,
`acos`, degrees. -/
def sunAngleDeg (target_vec : Vec3) (sun_positions observer_positions : ℕ → Vec3)
    (i : ℕ) : ℝ :=
  let sun_rel := vsub (sun_positions i) (observer_positions i)
  let sun_unit := normalize_vector sun_rel
  let cos_angle := dot_product target_vec sun_unit
  Real.arccos (fclamp cos_angle (-1) 1) * (180 / π)

/-- The violation test of `SunProximityEvaluator::evaluate`
(src/constraints.rs:271-272). -/
def sunIsViolated (ev : SunProximityEvaluator) (angle_deg : ℝ) : Bool :=
  decide (angle_deg < ev.min_angle_deg) ||
    (match ev.max_angle_deg with
     | some m => decide (angle_deg > m)
     | none => false)

/-- The severity computation of `SunProximityEvaluator::evaluate`
(src/constraints.rs:275-281); only used on violated samples. -/
def sunSeverity (ev : SunProximityEvaluator) (angle_deg : ℝ) : ℝ :=
  if angle_deg < ev.min_angle_deg then
    (ev.min_angle_deg - angle_deg) / ev.min_angle_deg
  else
    match ev.max_angle_deg with
    | some m => (angle_deg - m) / m
    | none => 0

/-- Per-index `(violated, severity)` pair fed to the scan by
`SunProximityEvaluator::evaluate`. -/
def sunSample (ev : SunProximityEvaluator) (target_vec : Vec3)
    (sun_positions observer_positions : ℕ → Vec3) (i : ℕ) : Bool × ℝ :=
  let angle_deg := sunAngleDeg target_vec sun_positions observer_positions i
  (sunIsViolated ev angle_deg, sunSeverity ev angle_deg)

/-- `SunProximityEvaluator::evaluate` (src/constraints.rs:240-322). Descriptions
are format strings with no logic; they are embedded as `Unit`. -/
def sunEvaluate [Inhabited τ] (ev : SunProximityEvaluator) (times : List τ)
    (target_ra target_dec : ℝ) (sun_positions observer_positions : ℕ → Vec3) :
    ConstraintResult τ Unit :=
  let target_vec := radec_to_unit_vector target_ra target_dec
  let violations := track_violations times
    (sunSample ev target_vec sun_positions observer_positions) (fun _ => ()) ()
  { violations := violations
    all_satisfied := violations.isEmpty
    times := times }

/-! ## Daytime evaluator (src/constraints/daytime.rs) -/

/-- `TwilightType` (src/constraints/daytime.rs:10-19). -/
inductive TwilightType where
  | Civil
  | Nautical
  | Astronomical
  | NoTwilight
  deriving DecidableEq, Repr

/-- `DaytimeEvaluator` (src/constraints/daytime.rs:40-43). -/
structure DaytimeEvaluator where
  allow_daytime : Bool
  twilight : TwilightType

/-- `DaytimeEvaluator::twilight_angle` (src/constraints/daytime.rs:47-54). -/
def twilight_angle (ev : DaytimeEvaluator) : ℝ :=
  match ev.twilight with
  | .Civil => -6
  | .Nautical => -12
  | .Astronomical => -18
  | .NoTwilight => 0

/-- `DaytimeEvaluator::calculate_sun_altitude` (src/constraints/daytime.rs:171-181):
ignores both position arguments and returns the constant `0.1`. -/
def calculate_sun_altitude (_sun_pos _observer_pos : Vec3) : ℝ := 0.1

/-- The per-sample violation verdict of `DaytimeEvaluator::evaluate`
(src/constraints/daytime.rs:89-103). -/
def daytimeViolatedAt (ev : DaytimeEvaluator) (sun_positions observer_positions : ℕ → Vec3)
    (i : ℕ) : Bool :=
  let sun_alt := calculate_sun_altitude (sun_positions i) (observer_positions i)
  let is_daytime : Bool := decide (sun_alt > twilight_angle ev)
  if ev.allow_daytime then !is_daytime else is_daytime

/-- `DaytimeEvaluator::evaluate` (src/constraints/daytime.rs:78-121):
binary severity `1.0`. -/
def daytimeEvaluate [Inhabited τ] (ev : DaytimeEvaluator) (times : List τ)
    (sun_positions observer_positions : ℕ → Vec3) : ConstraintResult τ Unit :=
  let violations := track_violations times
    (fun i => (daytimeViolatedAt ev sun_positions observer_positions i, 1))
    (fun _ => ()) ()
  { violations := violations
    all_satisfied := violations.isEmpty
    times := times }

/-- Matrix entry `result[[j, i]]` written by `DaytimeEvaluator::in_constraint_batch`
(src/constraints/daytime.rs:123-156): the loop stores `violated` itself. -/
def daytimeBatchEntry (ev : DaytimeEvaluator) (sun_positions observer_positions : ℕ → Vec3)
    (_j i : ℕ) : Bool :=
  let sun_alt := calculate_sun_altitude (sun_positions i) (observer_positions i)
  let is_daytime : Bool := decide (sun_alt > twilight_angle ev)
  let violated := if ev.allow_daytime then !is_daytime else is_daytime
  violated

/-! ## Orbit pole evaluator (src/constraints/orbit_pole.rs) -/

/-- `OrbitPoleEvaluator` (src/constraints/orbit_pole.rs:28-31). -/
structure OrbitPoleEvaluator where
  min_angle_deg : ℝ
  max_angle_deg : Option ℝ

/-- The ephemeris data consumed by the orbit-pole constraint:
`ephemeris.data().gcrs` is an optional `N × ncols` array (positions, and
velocities when `ncols ≥ 6`). `row i c` is entry `[[i, c]]`. -/
structure GcrsData where
  ncols : ℕ
  row : ℕ → ℕ → ℝ

/-- The ephemeris view used here: timestamps plus optional GCRS state array. -/
structure Ephemeris (τ : Type) where
  times : List τ
  gcrs : Option GcrsData

/-- `OrbitPoleEvaluator::calculate_orbital_pole` (src/constraints/orbit_pole.rs:45-55):
cross product of position and velocity, normalised. -/
def calculate_orbital_pole (position velocity : Vec3) : Vec3 :=
  let pole : Vec3 :=
    (position.2.1 * velocity.2.2 - position.2.2 * velocity.2.1,
     position.2.2 * velocity.1 - position.1 * velocity.2.2,
     position.1 * velocity.2.1 - position.2.1 * velocity.1)
  normalize_vector pole

/-- The per-index `(violated, severity)` closure of `OrbitPoleEvaluator::evaluate`
(src/constraints/orbit_pole.rs:76-128): returns `(false, 0.0)` when the GCRS
data is absent or has fewer than 6 columns. -/
def orbitPoleSample (ev : OrbitPoleEvaluator) (eph : Ephemeris τ)
    (target_ra target_dec : ℝ) (i : ℕ) : Bool × ℝ :=
  match eph.gcrs with
  | none => (false, 0)
  | some g =>
    if g.ncols < 6 then (false, 0)
    else
      let position : Vec3 := (g.row i 0, g.row i 1, g.row i 2)
      let velocity : Vec3 := (g.row i 3, g.row i 4, g.row i 5)
      let pole_unit := calculate_orbital_pole position velocity
      let target_unit := radec_to_unit_vector target_ra target_dec
      let cos_angle := dot_product target_unit pole_unit
      let angle_deg := Real.arccos (fclamp cos_angle (-1) 1) * (180 / π)
      let violatedMin : Bool := decide (angle_deg < ev.min_angle_deg)
      let sev1 : ℝ := if angle_deg < ev.min_angle_deg
        then min (ev.min_angle_deg - angle_deg) 1 else 1
      match ev.max_angle_deg with
      | some max_angle =>
          if angle_deg > max_angle then (true, min (angle_deg - max_angle) 1)
          else (violatedMin, sev1)
      | none => (violatedMin, sev1)

/-- `OrbitPoleEvaluator::evaluate` (src/constraints/orbit_pole.rs:59-173). -/
def orbitPoleEvaluate [Inhabited τ] (ev : OrbitPoleEvaluator) (eph : Ephemeris τ)
    (target_ra target_dec : ℝ) : ConstraintResult τ Unit :=
  let violations := track_violations eph.times
    (orbitPoleSample ev eph target_ra target_dec) (fun _ => ()) ()
  { violations := violations
    all_satisfied := violations.isEmpty
    times := eph.times }

/-- `OrbitPoleEvaluator::in_constraint_batch` (src/constraints/orbit_pole.rs:175-257):
hard error when GCRS data is missing or has no velocity columns, otherwise the
satisfaction matrix `result[[j, i]] = !violated`. -/
def orbitPoleInConstraintBatch (ev : OrbitPoleEvaluator) (eph : Ephemeris τ)
    (target_ras target_decs : List ℝ) : Except String (ℕ → ℕ → Bool) :=
  match eph.gcrs with
  | none => .error "GCRS data not available in ephemeris"
  | some g =>
    if g.ncols < 6 then
      .error "Velocity data not available in ephemeris - orbit pole constraint requires position and velocity data"
    else
      .ok (fun j i =>
        let position : Vec3 := (g.row i 0, g.row i 1, g.row i 2)
        let velocity : Vec3 := (g.row i 3, g.row i 4, g.row i 5)
        let pole_unit := calculate_orbital_pole position velocity
        let target_unit := radec_to_unit_vector (target_ras.getD j 0) (target_decs.getD j 0)
        let cos_angle := dot_product target_unit pole_unit
        let angle_deg := Real.arccos (fclamp cos_angle (-1) 1) * (180 / π)
        let violated : Bool := decide (angle_deg < ev.min_angle_deg) ||
          (match ev.max_angle_deg with
           | some max_angle => decide (angle_deg > max_angle)
           | none => false)
        !violated)

/-- If no sample is ever violated, the scan emits no windows. -/
theorem track_violations_of_never_violated [Inhabited τ] (times : List τ)
    (sample : ℕ → Bool × ℝ) (descMid : ℕ → δ) (descFinal : δ)
    (h : ∀ i, (sample i).1 = false) :
    track_violations times sample descMid descFinal = [] := by
  have hfold : ∀ l : List ℕ,
      l.foldl (trackStep times sample descMid) ([], none) = ([], none) := by
    intro l
    induction l with
    | nil => rfl
    | cons a l ih =>
        rw [List.foldl_cons]
        have hstep : trackStep times sample descMid ([], none) a = ([], none) := by
          unfold trackStep
          simp [h a]
        rw [hstep]
        exact ih
  unfold track_violations
  rw [hfold]

/-- C7: when the ephemeris carries no velocity data (GCRS absent or fewer than
6 columns), the orbit-pole streaming `evaluate` path reports every sample as
not violated with severity 0 (hence an empty window list and
`all_satisfied = true`), while `in_constraint_batch` returns a hard error. -/
theorem orbitPole_missing_velocity_asymmetry [Inhabited τ]
    (ev : OrbitPoleEvaluator) (eph : Ephemeris τ)
    (h : eph.gcrs = none ∨ ∃ g, eph.gcrs = some g ∧ g.ncols < 6) :
    (∀ ra dec i, orbitPoleSample ev eph ra dec i = (false, 0)) ∧
    (∀ ra dec, (orbitPoleEvaluate ev eph ra dec).violations = [] ∧
       (orbitPoleEvaluate ev eph ra dec).all_satisfied = true) ∧
    (∀ ras decs, ∃ msg, orbitPoleInConstraintBatch ev eph ras decs = .error msg) := by
  have hsample : ∀ ra dec i, orbitPoleSample ev eph ra dec i = (false, 0) := by
    intro ra dec i
    unfold orbitPoleSample
    rcases h with hnone | ⟨g, hg, hcols⟩
    · rw [hnone]
    · rw [hg]
      simp [hcols]
  refine ⟨hsample, ?_, ?_⟩
  · intro ra dec
    have hz : track_violations eph.times (orbitPoleSample ev eph ra dec)
        (fun _ => ()) () = [] := by
      apply track_violations_of_never_violated
      intro i
      rw [hsample ra dec i]
    constructor
    · show track_violations _ _ _ _ = _
      exact hz
    · show (track_violations _ _ _ _).isEmpty = true
      rw [hz]
      rfl
  · intro ras decs
    unfold orbitPoleInConstraintBatch
    rcases h with hnone | ⟨g, hg, hcols⟩
    · rw [hnone]
      exact ⟨_, rfl⟩
    · rw [hg]
      simp only [hcols, if_pos]
      exact ⟨_, rfl⟩

/-- Witness for C7 at a concrete input: a two-sample ephemeris with no GCRS
data at all. -/
theorem orbitPole_missing_velocity_asymmetry_witness :
    (orbitPoleSample ⟨10, none⟩ ⟨([0, 1] : List ℚ), none⟩ 0 0 0 = (false, 0)) ∧
    (orbitPoleEvaluate ⟨10, none⟩ ⟨([0, 1] : List ℚ), none⟩ 0 0).all_satisfied = true ∧
    (∃ msg, orbitPoleInConstraintBatch ⟨10, none⟩ ⟨([0, 1] : List ℚ), none⟩ [0] [0] =
      .error msg) := by
  have h := orbitPole_missing_velocity_asymmetry (τ := ℚ) ⟨10, none⟩ ⟨[0, 1], none⟩
    (Or.inl rfl)
  exact ⟨h.1 0 0 0, (h.2.1 0 0).2, h.2.2 [0] [0]⟩

/-- C10: the daytime evaluator's computed Sun altitude is the constant `0.1`
for every Sun/observer position, so the per-sample verdict is independent of
the ephemeris: it is `true` (violated) exactly when `allow_daytime = false`,
for every twilight setting (all thresholds lie below `0.1`). -/
theorem daytime_verdict_constant (ev : DaytimeEvaluator)
    (sun_positions observer_positions : ℕ → Vec3) (i : ℕ) :
    calculate_sun_altitude (sun_positions i) (observer_positions i) = 0.1 ∧
    daytimeViolatedAt ev sun_positions observer_positions i = !ev.allow_daytime := by
  refine ⟨rfl, ?_⟩
  have hday : decide ((0.1 : ℝ) > twilight_angle ev) = true := by
    rcases ev with ⟨a, t⟩
    cases t <;> · simp only [twilight_angle]; norm_num
  simp only [daytimeViolatedAt, calculate_sun_altitude, hday]
  cases h : ev.allow_daytime <;> simp [h]

/-- C2: over any strictly increasing 10-timestamp sequence, a per-sample
predicate violated exactly at indices {2,3,4}, {6} and {9} produces exactly
three windows `(t2,t4)`, `(t6,t6)`, `(t9,t9)`, each carrying the maximum of
the per-sample severities over its index span. -/
theorem track_violations_synthetic_pattern {τ δ : Type} [LinearOrder τ] [Inhabited τ]
    (t : ℕ → τ) (hmono : ∀ a b, a < b → b ≤ 9 → t a < t b)
    (sample : ℕ → Bool × ℝ) (sev : ℕ → ℝ)
    (hsample : ∀ i, i ≤ 9 → sample i =
      (decide (i = 2 ∨ i = 3 ∨ i = 4 ∨ i = 6 ∨ i = 9), sev i))
    (descMid : ℕ → δ) (descFinal : δ) :
    track_violations [t 0, t 1, t 2, t 3, t 4, t 5, t 6, t 7, t 8, t 9]
        sample descMid descFinal =
      [⟨t 2, t 4, max (max (sev 2) (sev 3)) (sev 4), descMid 5⟩,
       ⟨t 6, t 6, sev 6, descMid 7⟩,
       ⟨t 9, t 9, sev 9, descFinal⟩] := by
  have h0 : sample 0 = (false, sev 0) := by rw [hsample 0 (by norm_num)]; simp
  have h1 : sample 1 = (false, sev 1) := by rw [hsample 1 (by norm_num)]; simp
  have h2 : sample 2 = (true, sev 2) := by rw [hsample 2 (by norm_num)]; simp
  have h3 : sample 3 = (true, sev 3) := by rw [hsample 3 (by norm_num)]; simp
  have h4 : sample 4 = (true, sev 4) := by rw [hsample 4 (by norm_num)]; simp
  have h5 : sample 5 = (false, sev 5) := by rw [hsample 5 (by norm_num)]; simp
  have h6 : sample 6 = (true, sev 6) := by rw [hsample 6 (by norm_num)]; simp
  have h7 : sample 7 = (false, sev 7) := by rw [hsample 7 (by norm_num)]; simp
  have h8 : sample 8 = (false, sev 8) := by rw [hsample 8 (by norm_num)]; simp
  have h9 : sample 9 = (true, sev 9) := by rw [hsample 9 (by norm_num)]; simp
  have hrange : List.range 10 = [0, 1, 2, 3, 4, 5, 6, 7, 8, 9] := rfl
  unfold track_violations
  simp only [List.length_cons, List.length_nil, hrange, List.foldl_cons, List.foldl_nil,
    trackStep, h0, h1, h2, h3, h4, h5, h6, h7, h8, h9]
  simp [List.getD]

/-- Witness for C2 at a concrete input: timestamps 0..9 in `ℚ`, constant
severity 1. -/
theorem track_violations_synthetic_pattern_witness :
    track_violations ([0, 1, 2, 3, 4, 5, 6, 7, 8, 9] : List ℚ)
      (fun i => (decide (i = 2 ∨ i = 3 ∨ i = 4 ∨ i = 6 ∨ i = 9), (1 : ℝ)))
      (fun _ => ()) () =
      [⟨2, 4, 1, ()⟩, ⟨6, 6, 1, ()⟩, ⟨9, 9, 1, ()⟩] := by
  have h := track_violations_synthetic_pattern (τ := ℚ) (δ := Unit)
    (fun i => (i : ℚ)) (by intro a b hab _; simp only []; exact_mod_cast hab)
    (fun i => (decide (i = 2 ∨ i = 3 ∨ i = 4 ∨ i = 6 ∨ i = 9), (1 : ℝ)))
    (fun _ => 1) (fun i _ => rfl) (fun _ => ()) ()
  simpa using h

/-- `radec_to_unit_vector 0 0` is the x-axis unit vector. -/
theorem radec_to_unit_vector_zero : radec_to_unit_vector 0 0 = (1, 0, 0) := by
  unfold radec_to_unit_vector
  simp

/-- Computing `sunAngleDeg` when the observer sits at the origin, the target is
the x-axis, and the Sun lies on the unit circle at angle `d` degrees from the
x-axis: the computed separation is exactly `d` for `0 ≤ d ≤ 180`. -/
theorem sunAngleDeg_unit_circle (d : ℝ) (h0 : 0 ≤ d) (h1 : d ≤ 180)
    (sun_positions observer_positions : ℕ → Vec3) (i : ℕ)
    (hsun : sun_positions i = (Real.cos (d * (π / 180)), Real.sin (d * (π / 180)), 0))
    (hobs : observer_positions i = (0, 0, 0)) :
    sunAngleDeg (1, 0, 0) sun_positions observer_positions i = d := by
  have hpi := Real.pi_pos
  set x := d * (π / 180) with hx
  have hx0 : 0 ≤ x := by positivity
  have hxpi : x ≤ π := by
    rw [hx]
    calc d * (π / 180) ≤ 180 * (π / 180) := by
          apply mul_le_mul_of_nonneg_right h1
          positivity
      _ = π := by ring
  have hsc := Real.sin_sq_add_cos_sq x
  have hm : Real.cos x * Real.cos x + Real.sin x * Real.sin x + (0 : ℝ) * 0 = 1 := by
    linear_combination hsc
  have hclamp : fclamp (Real.cos x) (-1) 1 = Real.cos x := by
    unfold fclamp
    rw [min_eq_left (Real.cos_le_one x), max_eq_right (Real.neg_one_le_cos x)]
  unfold sunAngleDeg
  simp only [hsun, hobs, vsub, normalize_vector, vector_magnitude, dot_product, sub_zero]
  rw [hm, Real.sqrt_one]
  simp only [gt_iff_lt, zero_lt_one, if_true, div_one, one_mul, zero_mul, add_zero]
  rw [hclamp, Real.arccos_cos hx0 hxpi, hx]
  field_simp

/-- The ten angular separations (degrees) of the C3 end-to-end scenario. -/
def c3Angles : List ℝ := [10, 10, 25, 25, 25, 10, 10, 10, 25, 25]

/-- Sun positions realising exactly those separations: unit vectors at angle
`c3Angles[i]` degrees from the x-axis target. -/
def c3SunPositions (i : ℕ) : Vec3 :=
  (Real.cos (c3Angles.getD i 0 * (π / 180)), Real.sin (c3Angles.getD i 0 * (π / 180)), 0)

/-- Observer at the origin for the C3 scenario. -/
def c3ObserverPositions (_ : ℕ) : Vec3 := (0, 0, 0)

/-- C3: a Sun-proximity constraint with `min_angle = 20°` and no `max_angle`,
over 10 samples whose separations are `[10,10,25,25,25,10,10,10,25,25]`
degrees, yields exactly two violation windows covering sample indices {0,1}
and {5,6,7}, each with `max_severity = (20-10)/20 = 0.5`, and
`all_satisfied = false`; in general a sample is violated iff the separation is
below `min_angle` or (when set) above `max_angle`, with severity
`(min_angle - angle)/min_angle` below min and `(angle - max_angle)/max_angle`
above max. -/
theorem sunProximity_end_to_end :
    (∀ i, i < 10 → sunAngleDeg (radec_to_unit_vector 0 0) c3SunPositions
        c3ObserverPositions i = c3Angles.getD i 0) ∧
    (sunEvaluate ⟨20, none⟩ ([0, 1, 2, 3, 4, 5, 6, 7, 8, 9] : List ℚ) 0 0
        c3SunPositions c3ObserverPositions =
      { violations := [⟨0, 1, 1/2, ()⟩, ⟨5, 7, 1/2, ()⟩]
        all_satisfied := false
        times := [0, 1, 2, 3, 4, 5, 6, 7, 8, 9] }) ∧
    (∀ ev angle_deg, sunIsViolated ev angle_deg = true ↔
      (angle_deg < ev.min_angle_deg ∨ ∃ m, ev.max_angle_deg = some m ∧ angle_deg > m)) ∧
    (∀ ev angle_deg, angle_deg < ev.min_angle_deg →
      sunSeverity ev angle_deg = (ev.min_angle_deg - angle_deg) / ev.min_angle_deg) ∧
    (∀ ev angle_deg m, ev.max_angle_deg = some m → ¬ angle_deg < ev.min_angle_deg →
      sunSeverity ev angle_deg = (angle_deg - m) / m) := by
  have hang : ∀ i, i < 10 → sunAngleDeg (radec_to_unit_vector 0 0) c3SunPositions
      c3ObserverPositions i = c3Angles.getD i 0 := by
    intro i hi
    rw [radec_to_unit_vector_zero]
    apply sunAngleDeg_unit_circle (c3Angles.getD i 0) ?_ ?_ _ _ i rfl rfl
    · interval_cases i <;> norm_num [c3Angles]
    · interval_cases i <;> norm_num [c3Angles]
  refine ⟨hang, ?_, ?_, ?_, ?_⟩
  · have hs : ∀ i, i < 10 →
        sunSample ⟨20, none⟩ (radec_to_unit_vector 0 0) c3SunPositions c3ObserverPositions i
          = (sunIsViolated ⟨20, none⟩ (c3Angles.getD i 0),
             sunSeverity ⟨20, none⟩ (c3Angles.getD i 0)) := by
      intro i hi
      unfold sunSample
      rw [hang i hi]
    have hs0 := hs 0 (by norm_num)
    have hs1 := hs 1 (by norm_num)
    have hs2 := hs 2 (by norm_num)
    have hs3 := hs 3 (by norm_num)
    have hs4 := hs 4 (by norm_num)
    have hs5 := hs 5 (by norm_num)
    have hs6 := hs 6 (by norm_num)
    have hs7 := hs 7 (by norm_num)
    have hs8 := hs 8 (by norm_num)
    have hs9 := hs 9 (by norm_num)
    have hv10 : sunIsViolated ⟨20, none⟩ (10 : ℝ) = true := by
      norm_num [sunIsViolated]
    have hv25 : sunIsViolated ⟨20, none⟩ (25 : ℝ) = false := by
      norm_num [sunIsViolated]
    have hsev10 : sunSeverity ⟨20, none⟩ (10 : ℝ) = 1/2 := by
      norm_num [sunSeverity]
    have hsev25 : sunSeverity ⟨20, none⟩ (25 : ℝ) = 0 := by
      norm_num [sunSeverity]
    simp only [c3Angles, List.getD_cons_zero, List.getD_cons_succ, hv10, hv25,
      hsev10, hsev25] at hs0 hs1 hs2 hs3 hs4 hs5 hs6 hs7 hs8 hs9
    have hrange : List.range 10 = [0, 1, 2, 3, 4, 5, 6, 7, 8, 9] := rfl
    have htv : track_violations ([0, 1, 2, 3, 4, 5, 6, 7, 8, 9] : List ℚ)
        (sunSample ⟨20, none⟩ (radec_to_unit_vector 0 0) c3SunPositions c3ObserverPositions)
        (fun _ => ()) () = [⟨0, 1, 1/2, ()⟩, ⟨5, 7, 1/2, ()⟩] := by
      unfold track_violations
      simp only [List.length_cons, List.length_nil, hrange, List.foldl_cons, List.foldl_nil,
        trackStep, hs0, hs1, hs2, hs3, hs4, hs5, hs6, hs7, hs8, hs9]
      simp [List.getD]
    simp only [sunEvaluate, htv]
    rfl
  · intro ev angle_deg
    unfold sunIsViolated
    rcases hm : ev.max_angle_deg with _ | m
    · simp
    · simp
  · intro ev angle_deg h
    unfold sunSeverity
    rw [if_pos h]
  · intro ev angle_deg m hm h
    unfold sunSeverity
    rw [if_neg h, hm]

/-- Witness for C3: the general conjuncts applied at concrete configurations
and angles. -/
theorem sunProximity_end_to_end_witness :
    (sunAngleDeg (radec_to_unit_vector 0 0) c3SunPositions c3ObserverPositions 0 =
      c3Angles.getD 0 0) ∧
    (sunIsViolated ⟨20, none⟩ 10 = true) ∧
    (sunSeverity ⟨20, none⟩ 10 = (20 - 10) / 20) ∧
    (sunSeverity ⟨20, some 40⟩ 50 = (50 - 40) / 40) := by
  obtain ⟨hang, _, hiff, hbelow, habove⟩ := sunProximity_end_to_end
  refine ⟨hang 0 (by norm_num), ?_, ?_, ?_⟩
  · exact (hiff ⟨20, none⟩ 10).2 (Or.inl (by norm_num))
  · exact hbelow ⟨20, none⟩ 10 (by norm_num)
  · exact habove ⟨20, some 40⟩ 50 40 rfl (by norm_num)

/-! ## The C6 windowing invariants -/

/-- The windows of a list are carried by index spans `[s, e]` that are
pairwise disjoint, increasing, start at or after `lo`, and end before `hi`;
each window's start/end is the sampled timestamp at its span's endpoints. -/
def ChainedBetween [Inhabited τ] (times : List τ) (hi : ℕ) :
    ℕ → List (ConstraintViolation τ δ) → Prop
  | _, [] => True
  | lo, w :: rest =>
      ∃ s e, lo ≤ s ∧ s ≤ e ∧ e < hi ∧
        w.start_time = times.getD s default ∧ w.end_time = times.getD e default ∧
        ChainedBetween times hi (e + 1) rest

theorem ChainedBetween_mono [Inhabited τ] (times : List τ) {hi hi' : ℕ}
    (h : hi ≤ hi') : ∀ (lo : ℕ) (ws : List (ConstraintViolation τ δ)),
    ChainedBetween times hi lo ws → ChainedBetween times hi' lo ws := by
  intro lo ws
  induction ws generalizing lo with
  | nil => intro _; trivial
  | cons w rest ih =>
      intro hw
      obtain ⟨s, e, h1, h2, h3, h4, h5, h6⟩ := hw
      exact ⟨s, e, h1, h2, lt_of_lt_of_le h3 h, h4, h5, ih (e + 1) h6⟩

theorem ChainedBetween_append [Inhabited τ] (times : List τ) {hi hi' s e : ℕ}
    (m : ℝ) (d : δ) (hhis : hi ≤ s) (hse : s ≤ e) (he : e < hi') (hhi : hi ≤ hi') :
    ∀ (lo : ℕ) (ws : List (ConstraintViolation τ δ)), lo ≤ s →
    ChainedBetween times hi lo ws →
    ChainedBetween times hi' lo
      (ws ++ [⟨times.getD s default, times.getD e default, m, d⟩]) := by
  intro lo ws
  induction ws generalizing lo with
  | nil =>
      intro hlo _
      exact ⟨s, e, hlo, hse, he, rfl, rfl, trivial⟩
  | cons w rest ih =>
      intro hlo hw
      obtain ⟨s0, e0, h1, h2, h3, h4, h5, h6⟩ := hw
      refine ⟨s0, e0, h1, h2, lt_of_lt_of_le h3 hhi, h4, h5, ?_⟩
      exact ih (e0 + 1) (Nat.succ_le_of_lt (lt_of_lt_of_le h3 hhis)) h6

/-- The loop invariant of the scan: after processing indices `0..n`, the
closed windows are chained below `n` (below the open window's start when one
is open), and an open window starts before `n`. -/
def ScanStInv [Inhabited τ] (times : List τ) (n : ℕ) (st : ScanState τ δ) : Prop :=
  match st.2 with
  | none => ChainedBetween times n 0 st.1
  | some (s, _) => s < n ∧ ChainedBetween times s 0 st.1

theorem trackStep_preserves_inv [Inhabited τ] (times : List τ)
    (sample : ℕ → Bool × ℝ) (descMid : ℕ → δ) (i : ℕ) (st : ScanState τ δ)
    (h : ScanStInv times i st) :
    ScanStInv times (i + 1) (trackStep times sample descMid st i) := by
  unfold trackStep
  rcases hv : (sample i).1 with _ | _
  · -- not violated
    simp only [hv, Bool.false_eq_true, if_false]
    rcases hst : st.2 with _ | ⟨s, m⟩
    · -- no open window: state unchanged
      unfold ScanStInv at h ⊢
      rw [hst] at h ⊢
      exact ChainedBetween_mono times (Nat.le_succ i) 0 st.1 h
    · -- close the open window with span [s, i-1]
      unfold ScanStInv at h ⊢
      rw [hst] at h
      obtain ⟨hsi, hch⟩ := h
      simp only []
      refine ChainedBetween_append times _ _ ?_ ?_ ?_ ?_ 0 st.1 (Nat.zero_le s) hch
      · exact le_rfl
      · exact Nat.le_sub_one_of_lt hsi
      · exact lt_of_le_of_lt (Nat.sub_le i 1) (Nat.lt_succ_self i)
      · exact le_of_lt (Nat.lt_succ_of_lt hsi)
  · -- violated
    simp only [hv, if_true]
    rcases hst : st.2 with _ | ⟨s, m⟩
    · unfold ScanStInv at h ⊢
      rw [hst] at h
      exact ⟨Nat.lt_succ_self i, h⟩
    · unfold ScanStInv at h ⊢
      rw [hst] at h
      exact ⟨Nat.lt_succ_of_lt h.1, h.2⟩

theorem scan_fold_inv [Inhabited τ] (times : List τ) (sample : ℕ → Bool × ℝ)
    (descMid : ℕ → δ) (n : ℕ) :
    ScanStInv times n ((List.range n).foldl (trackStep times sample descMid) ([], none)) := by
  induction n with
  | zero => trivial
  | succ n ih =>
      rw [List.range_succ, List.foldl_append, List.foldl_cons, List.foldl_nil]
      exact trackStep_preserves_inv times sample descMid n _ ih

/-- The scan's full output is chained below `times.length`. -/
theorem track_violations_chained [Inhabited τ] (times : List τ)
    (sample : ℕ → Bool × ℝ) (descMid : ℕ → δ) (descFinal : δ) :
    ChainedBetween times times.length 0
      (track_violations times sample descMid descFinal) := by
  unfold track_violations
  have hinv := scan_fold_inv times sample descMid times.length
  set st := (List.range times.length).foldl (trackStep times sample descMid) ([], none)
    with hst
  rcases h2 : st.2 with _ | ⟨s, m⟩
  · unfold ScanStInv at hinv
    rw [h2] at hinv
    simpa [h2] using hinv
  · unfold ScanStInv at hinv
    rw [h2] at hinv
    obtain ⟨hsn, hch⟩ := hinv
    simp only [h2]
    refine ChainedBetween_append times _ _ le_rfl ?_ ?_ (le_of_lt hsn) 0 st.1
      (Nat.zero_le s) hch
    · exact Nat.le_sub_one_of_lt hsn
    · exact Nat.sub_lt (lt_of_le_of_lt (Nat.zero_le s) hsn) Nat.one_pos

theorem getD_lt_getD_of_pairwise {τ : Type} [Preorder τ] [Inhabited τ]
    {times : List τ} (hpw : List.Pairwise (· < ·) times) {a b : ℕ}
    (hab : a < b) (hb : b < times.length) :
    times.getD a default < times.getD b default := by
  have ha : a < times.length := lt_trans hab hb
  rw [times.getD_eq_getElem default ha, times.getD_eq_getElem default hb]
  exact List.pairwise_iff_get.mp hpw ⟨a, ha⟩ ⟨b, hb⟩ hab

theorem chained_windows_props {τ δ : Type} [LinearOrder τ] [Inhabited τ]
    (times : List τ) (hpw : List.Pairwise (· < ·) times) {hi : ℕ}
    (hhi : hi ≤ times.length) :
    ∀ (lo : ℕ) (ws : List (ConstraintViolation τ δ)), ChainedBetween times hi lo ws →
      List.Chain' (fun w w' => w.end_time < w'.start_time) ws ∧
      ∀ w ∈ ws, w.start_time ∈ times ∧ w.end_time ∈ times ∧
        w.start_time ≤ w.end_time ∧
        ∃ s e, s ≤ e ∧ e < times.length ∧
          w.start_time = times.getD s default ∧ w.end_time = times.getD e default := by
  intro lo ws
  induction ws generalizing lo with
  | nil => intro _; exact ⟨List.chain'_nil, by simp⟩
  | cons w rest ih =>
      intro hw
      obtain ⟨s, e, h1, h2, h3, h4, h5, h6⟩ := hw
      have helen : e < times.length := lt_of_lt_of_le h3 hhi
      have hslen : s < times.length := lt_of_le_of_lt h2 helen
      have hrest := ih (e + 1) h6
      constructor
      · refine List.chain'_cons'.mpr ⟨?_, hrest.1⟩
        intro w' hw'
        rcases rest with _ | ⟨w0, rest'⟩
        · simp at hw'
        · simp only [List.head?_cons, Option.mem_some_iff] at hw'
          subst hw'
          obtain ⟨s', e', g1, g2, g3, g4, g5, _⟩ := h6
          rw [h5, g4]
          exact getD_lt_getD_of_pairwise hpw
            (lt_of_lt_of_le (Nat.lt_succ_self e) g1)
            (lt_of_le_of_lt g2 (lt_of_lt_of_le g3 hhi))
      · intro w0 hw0
        rcases List.mem_cons.mp hw0 with heq | hmem
        · subst heq
          refine ⟨?_, ?_, ?_, s, e, h2, helen, h4, h5⟩
          · rw [h4, times.getD_eq_getElem default hslen]
            exact List.getElem_mem _
          · rw [h5, times.getD_eq_getElem default helen]
            exact List.getElem_mem _
          · rcases lt_or_eq_of_le h2 with hlt | heq2
            · rw [h4, h5]
              exact le_of_lt (getD_lt_getD_of_pairwise hpw hlt helen)
            · rw [h4, h5, heq2]
        · exact hrest.2 w0 hmem

/-- C6: over any strictly increasing timestamp sequence, the scan's windows
are time-ordered and non-overlapping (`window[i].end < window[i+1].start` for
consecutive windows), every window's start and end are timestamps drawn from
the original sequence (with `start ≤ end`, and `start = end` whenever the
window spans a single sample index, i.e. its span has `s = e`). -/
theorem track_violations_windows_invariant {τ δ : Type} [LinearOrder τ] [Inhabited τ]
    (times : List τ) (hpw : List.Pairwise (· < ·) times)
    (sample : ℕ → Bool × ℝ) (descMid : ℕ → δ) (descFinal : δ) :
    List.Chain' (fun w w' => w.end_time < w'.start_time)
        (track_violations times sample descMid descFinal) ∧
    ∀ w ∈ track_violations times sample descMid descFinal,
      w.start_time ∈ times ∧ w.end_time ∈ times ∧ w.start_time ≤ w.end_time ∧
      ∃ s e, s ≤ e ∧ e < times.length ∧
        w.start_time = times.getD s default ∧ w.end_time = times.getD e default :=
  chained_windows_props times hpw le_rfl 0 _
    (track_violations_chained times sample descMid descFinal)

/-- Witness for C6 at a concrete input: three increasing rational timestamps
with an always-violated predicate. -/
theorem track_violations_windows_invariant_witness :
    List.Chain' (fun w w' => w.end_time < w'.start_time)
        (track_violations ([0, 1, 2] : List ℚ) (fun _ => (true, 1))
          (fun _ => ()) ()) ∧
    ∀ w ∈ track_violations ([0, 1, 2] : List ℚ) (fun _ => (true, 1))
        (fun _ => ()) (),
      w.start_time ∈ ([0, 1, 2] : List ℚ) ∧ w.end_time ∈ ([0, 1, 2] : List ℚ) ∧
      w.start_time ≤ w.end_time ∧
      ∃ s e, s ≤ e ∧ e < ([0, 1, 2] : List ℚ).length ∧
        w.start_time = ([0, 1, 2] : List ℚ).getD s default ∧
        w.end_time = ([0, 1, 2] : List ℚ).getD e default :=
  track_violations_windows_invariant ([0, 1, 2] : List ℚ) (by decide)
    (fun _ => (true, 1)) (fun _ => ()) ()

/-! ## South Atlantic Anomaly evaluator (src/constraints/saa.rs) -/

/-- One loop iteration of `SAAEvaluator::point_in_polygon`
(src/constraints/saa.rs:39-51): the crossing contribution of the directed edge
`p1 → p2` to the winding number at `(lon, lat)`. Coordinates are modelled over
`ℚ`, and the `f64` accumulator `winding_number` (which only ever holds whole
numbers `0, ±1, ±2, …`) over `ℤ`. -/
def windingContrib (p1 p2 : ℚ × ℚ) (lon lat : ℚ) : ℤ :=
  if p1.2 ≤ lat then
    if p2.2 > lat ∧ (p2.1 - p1.1) * (lat - p1.2) - (lon - p1.1) * (p2.2 - p1.2) > 0
    then 1 else 0
  else
    if p2.2 ≤ lat ∧ (p2.1 - p1.1) * (lat - p1.2) - (lon - p1.1) * (p2.2 - p1.2) < 0
    then -1 else 0

/-- The accumulated winding number of `SAAEvaluator::point_in_polygon`
(src/constraints/saa.rs:35-53): sum over edges `(polygon[i], polygon[(i+1) % n])`. -/
def windingNumber (polygon : List (ℚ × ℚ)) (lon lat : ℚ) : ℤ :=
  ∑ i ∈ Finset.range polygon.length,
    windingContrib (polygon.getD i (0, 0))
      (polygon.getD ((i + 1) % polygon.length) (0, 0)) lon lat

/-- `SAAEvaluator::point_in_polygon` (src/constraints/saa.rs:35-54):
inside iff `winding_number != 0.0`. -/
def point_in_polygon (polygon : List (ℚ × ℚ)) (lon lat : ℚ) : Bool :=
  decide (windingNumber polygon lon lat ≠ 0)

/-- The per-sample closure of `SAAEvaluator::evaluate_with_latlon`
(src/constraints/saa.rs:65-74): violated iff the sub-point is inside the
polygon, with binary severity. -/
def saaSample (polygon : List (ℚ × ℚ)) (lats lons : ℕ → ℚ) (i : ℕ) : Bool × ℝ :=
  let in_saa := point_in_polygon polygon (lons i) (lats i)
  let violated := in_saa
  (violated, if violated then 1 else 0)

/-- Reversing a directed edge negates its winding contribution. -/
theorem windingContrib_swap (p1 p2 : ℚ × ℚ) (lon lat : ℚ) :
    windingContrib p2 p1 lon lat = - windingContrib p1 p2 lon lat := by
  unfold windingContrib
  have hcross : (p1.1 - p2.1) * (lat - p2.2) - (lon - p2.1) * (p1.2 - p2.2) =
      -((p2.1 - p1.1) * (lat - p1.2) - (lon - p1.1) * (p2.2 - p1.2)) := by ring
  rw [hcross]
  set c := (p2.1 - p1.1) * (lat - p1.2) - (lon - p1.1) * (p2.2 - p1.2) with hc
  by_cases h1 : p1.2 ≤ lat <;> by_cases h2 : p2.2 ≤ lat
  · have hn1 : ¬ lat < p1.2 := not_lt.mpr h1
    have hn2 : ¬ lat < p2.2 := not_lt.mpr h2
    simp [h1, h2, hn1, hn2]
  · have hl2 : lat < p2.2 := not_le.mp h2
    by_cases hc0 : 0 < c
    · simp [h1, h2, hl2, hc0, neg_lt_zero]
    · simp [h1, h2, hl2, hc0, neg_lt_zero]
  · have hl1 : lat < p1.2 := not_le.mp h1
    by_cases hc0 : c < 0
    · simp [h1, h2, hl1, hc0, neg_pos]
    · simp [h1, h2, hl1, hc0, neg_pos]
  · simp [h1, h2]

theorem getD_rotate {α : Type} (l : List α) (k i : ℕ) (hi : i < l.length) (d : α) :
    (l.rotate k).getD i d = l.getD ((i + k) % l.length) d := by
  have hi' : i < (l.rotate k).length := by rw [List.length_rotate]; exact hi
  have hlen0 : 0 < l.length := lt_of_le_of_lt (Nat.zero_le i) hi
  have hmod : (i + k) % l.length < l.length := Nat.mod_lt _ hlen0
  rw [(l.rotate k).getD_eq_getElem d hi', l.getD_eq_getElem d hmod, List.getElem_rotate]

theorem getD_reverse {α : Type} (l : List α) (i : ℕ) (hi : i < l.length) (d : α) :
    l.reverse.getD i d = l.getD (l.length - 1 - i) d := by
  have hi' : i < l.reverse.length := by rw [List.length_reverse]; exact hi
  have h2 : l.length - 1 - i < l.length := by omega
  rw [l.reverse.getD_eq_getElem d hi', l.getD_eq_getElem d h2, List.getElem_reverse]

theorem windingNumber_rotate_one (l : List (ℚ × ℚ)) (lon lat : ℚ) :
    windingNumber (l.rotate 1) lon lat = windingNumber l lon lat := by
  rcases Nat.eq_zero_or_pos l.length with hn | hn
  · have hnil := List.length_eq_zero.mp hn
    subst hnil
    rfl
  · unfold windingNumber
    rw [List.length_rotate]
    refine Finset.sum_nbij' (fun a => (a + 1) % l.length)
      (fun a => (a + (l.length - 1)) % l.length) ?_ ?_ ?_ ?_ ?_
    · intro a _
      exact Finset.mem_range.mpr (Nat.mod_lt _ hn)
    · intro a _
      exact Finset.mem_range.mpr (Nat.mod_lt _ hn)
    · intro a ha
      show ((a + 1) % l.length + (l.length - 1)) % l.length = a
      rw [Nat.mod_add_mod, show a + 1 + (l.length - 1) = a + l.length by omega,
        Nat.add_mod_right]
      exact Nat.mod_eq_of_lt (Finset.mem_range.mp ha)
    · intro a ha
      show ((a + (l.length - 1)) % l.length + 1) % l.length = a
      rw [Nat.mod_add_mod, show a + (l.length - 1) + 1 = a + l.length by omega,
        Nat.add_mod_right]
      exact Nat.mod_eq_of_lt (Finset.mem_range.mp ha)
    · intro a ha
      have ha' : a < l.length := Finset.mem_range.mp ha
      have hmod : (a + 1) % l.length < l.length := Nat.mod_lt _ hn
      rw [getD_rotate l 1 a ha', getD_rotate l 1 ((a + 1) % l.length) hmod,
        Nat.mod_add_mod]

theorem windingNumber_rotate (l : List (ℚ × ℚ)) (k : ℕ) (lon lat : ℚ) :
    windingNumber (l.rotate k) lon lat = windingNumber l lon lat := by
  induction k generalizing l with
  | zero => rw [List.rotate_zero]
  | succ k ih =>
      have hr : l.rotate (k + 1) = (l.rotate 1).rotate k := by
        rw [List.rotate_rotate, Nat.add_comm]
      rw [hr, ih (l.rotate 1), windingNumber_rotate_one]

theorem windingNumber_reverse (l : List (ℚ × ℚ)) (lon lat : ℚ) :
    windingNumber l.reverse lon lat = - windingNumber l lon lat := by
  rcases Nat.eq_zero_or_pos l.length with hn | hn
  · have hnil := List.length_eq_zero.mp hn
    subst hnil
    rfl
  · unfold windingNumber
    rw [List.length_reverse, ← Finset.sum_neg_distrib]
    have hσ : ∀ a, a < l.length →
        (2 * l.length - 2 - ((2 * l.length - 2 - a) % l.length)) % l.length = a := by
      intro a ha
      by_cases hlast : a = l.length - 1
      · subst hlast
        have h1 : 2 * l.length - 2 - (l.length - 1) = l.length - 1 := by omega
        have h2 : (l.length - 1) % l.length = l.length - 1 :=
          Nat.mod_eq_of_lt (by omega)
        rw [h1, h2, h1, h2]
      · have ha2 : a < l.length - 1 := by omega
        have h1 : 2 * l.length - 2 - a = l.length + (l.length - 2 - a) := by omega
        have h2 : (l.length + (l.length - 2 - a)) % l.length = l.length - 2 - a := by
          rw [Nat.add_mod_left]
          exact Nat.mod_eq_of_lt (by omega)
        have h3 : 2 * l.length - 2 - (l.length - 2 - a) = l.length + a := by omega
        have h4 : (l.length + a) % l.length = a := by
          rw [Nat.add_mod_left]
          exact Nat.mod_eq_of_lt ha
        rw [h1, h2, h3, h4]
    refine Finset.sum_nbij' (fun a => (2 * l.length - 2 - a) % l.length)
      (fun a => (2 * l.length - 2 - a) % l.length) ?_ ?_ ?_ ?_ ?_
    · intro a _
      exact Finset.mem_range.mpr (Nat.mod_lt _ hn)
    · intro a _
      exact Finset.mem_range.mpr (Nat.mod_lt _ hn)
    · intro a ha
      exact hσ a (Finset.mem_range.mp ha)
    · intro a ha
      exact hσ a (Finset.mem_range.mp ha)
    · intro a ha
      have ha' : a < l.length := Finset.mem_range.mp ha
      show windingContrib (l.reverse.getD a (0, 0))
          (l.reverse.getD ((a + 1) % l.length) (0, 0)) lon lat
        = -(windingContrib (l.getD ((2 * l.length - 2 - a) % l.length) (0, 0))
            (l.getD (((2 * l.length - 2 - a) % l.length + 1) % l.length) (0, 0)) lon lat)
      by_cases hlast : a = l.length - 1
      · subst hlast
        have e1 : (l.length - 1 + 1) % l.length = 0 := by
          rw [show l.length - 1 + 1 = l.length by omega, Nat.mod_self]
        have e2 : l.reverse.getD (l.length - 1) (0, 0) = l.getD 0 (0, 0) := by
          rw [getD_reverse l (l.length - 1) (by omega) (0, 0)]
          congr 1
          omega
        have e3 : l.reverse.getD 0 (0, 0) = l.getD (l.length - 1) (0, 0) :=
          getD_reverse l 0 (by omega) (0, 0)
        have e4 : (2 * l.length - 2 - (l.length - 1)) % l.length = l.length - 1 := by
          rw [show 2 * l.length - 2 - (l.length - 1) = l.length - 1 by omega]
          exact Nat.mod_eq_of_lt (by omega)
        rw [e1, e2, e3, e4, e1]
        exact windingContrib_swap _ _ lon lat
      · have ha2 : a < l.length - 1 := by omega
        have e1 : (a + 1) % l.length = a + 1 := Nat.mod_eq_of_lt (by omega)
        have e2 : l.reverse.getD a (0, 0) = l.getD (l.length - 1 - a) (0, 0) :=
          getD_reverse l a ha' (0, 0)
        have e3 : l.reverse.getD (a + 1) (0, 0) = l.getD (l.length - 2 - a) (0, 0) := by
          rw [getD_reverse l (a + 1) (by omega) (0, 0)]
          congr 1
          omega
        have e4 : (2 * l.length - 2 - a) % l.length = l.length - 2 - a := by
          rw [show 2 * l.length - 2 - a = l.length + (l.length - 2 - a) by omega,
            Nat.add_mod_left]
          exact Nat.mod_eq_of_lt (by omega)
        have e5 : (l.length - 2 - a + 1) % l.length = l.length - 1 - a := by
          rw [show l.length - 2 - a + 1 = l.length - 1 - a by omega]
          exact Nat.mod_eq_of_lt (by omega)
        rw [e1, e2, e3, e4, e5]
        exact windingContrib_swap _ _ lon lat

/-- C9: for the square polygon `[(0,0),(10,0),(10,10),(0,10)]` in
(longitude, latitude), the SAA point-in-polygon test classifies `(5,5)` as
inside (violated) and `(20,20)` as outside (satisfied); and for every polygon
and query point the classification is invariant under any cyclic rotation of
the vertex list and under reversal of the vertex order. -/
theorem saa_polygon_containment :
    (point_in_polygon [(0, 0), (10, 0), (10, 10), (0, 10)] 5 5 = true) ∧
    (point_in_polygon [(0, 0), (10, 0), (10, 10), (0, 10)] 20 20 = false) ∧
    ((saaSample [(0, 0), (10, 0), (10, 10), (0, 10)] (fun _ => 5) (fun _ => 5) 0).1
       = true) ∧
    ((saaSample [(0, 0), (10, 0), (10, 10), (0, 10)] (fun _ => 20) (fun _ => 20) 0).1
       = false) ∧
    (∀ (polygon : List (ℚ × ℚ)) (k : ℕ) (lon lat : ℚ),
      point_in_polygon (polygon.rotate k) lon lat = point_in_polygon polygon lon lat) ∧
    (∀ (polygon : List (ℚ × ℚ)) (lon lat : ℚ),
      point_in_polygon polygon.reverse lon lat = point_in_polygon polygon lon lat) := by
  have hwn1 : windingNumber [(0, 0), (10, 0), (10, 10), (0, 10)] 5 5 = 1 := by
    unfold windingNumber
    simp only [List.length_cons, List.length_nil]
    rw [Finset.sum_range_succ, Finset.sum_range_succ, Finset.sum_range_succ,
      Finset.sum_range_succ, Finset.sum_range_zero]
    norm_num [windingContrib, List.getD]
  have hwn2 : windingNumber [(0, 0), (10, 0), (10, 10), (0, 10)] 20 20 = 0 := by
    unfold windingNumber
    simp only [List.length_cons, List.length_nil]
    rw [Finset.sum_range_succ, Finset.sum_range_succ, Finset.sum_range_succ,
      Finset.sum_range_succ, Finset.sum_range_zero]
    norm_num [windingContrib, List.getD]
  refine ⟨?_, ?_, ?_, ?_, ?_, ?_⟩
  · unfold point_in_polygon
    rw [hwn1]
    rfl
  · unfold point_in_polygon
    rw [hwn2]
    rfl
  · show point_in_polygon [(0, 0), (10, 0), (10, 10), (0, 10)] 5 5 = true
    unfold point_in_polygon
    rw [hwn1]
    rfl
  · show point_in_polygon [(0, 0), (10, 0), (10, 10), (0, 10)] 20 20 = false
    unfold point_in_polygon
    rw [hwn2]
    rfl
  · intro polygon k lon lat
    unfold point_in_polygon
    rw [windingNumber_rotate]
  · intro polygon lon lat
    unfold point_in_polygon
    rw [windingNumber_reverse]
    simp

/-! ## Airmass evaluator (src/constraints/airmass.rs) -/

/-- `AirmassEvaluator::altitude_to_airmass` (src/constraints/airmass.rs:48-62):
below the horizon the source returns `f64::INFINITY`, modelled as `⊤ : EReal`;
below 0.174533 rad (~10°) it uses the Rozenberg-style expression
`1 / (sin a + 0.025 * (a + 0.15·a²).exp().ln())`, and otherwise the secant
approximation `1 / sin a`. -/
def altitude_to_airmass (altitude_deg : ℝ) : EReal :=
  let alt_rad := altitude_deg * (π / 180)
  if alt_rad ≤ 0 then ⊤
  else if alt_rad < 0.174533 then
    ((1 / (Real.sin alt_rad +
       0.025 * Real.log (Real.exp (alt_rad + 0.15 * alt_rad ^ 2)))) : ℝ)
  else ((1 / Real.sin alt_rad : ℝ))

/-- C4 counterexample: the claim "airmass(alt1) < airmass(alt2) whenever
alt1 > alt2 on (0°, 90°]" fails at `alt1 = 10.1°, alt2 = 10°`: the Rozenberg
branch used below the `0.174533 rad` crossover lies strictly below the secant
branch used above it, so airmass jumps up across the crossover. -/
theorem altitude_to_airmass_monotonicity_counterexample :
    (10 : ℝ) < 10.1 ∧ altitude_to_airmass 10 < altitude_to_airmass 10.1 := by
  have hpg := Real.pi_gt_3141592
  have hpl := Real.pi_lt_3141593
  have hpi := Real.pi_pos
  refine ⟨by norm_num, ?_⟩
  have hb2a : ¬ ((10 : ℝ) * (π / 180)) ≤ 0 := not_le.mpr (by positivity)
  have hb2b : ((10 : ℝ) * (π / 180)) < 0.174533 := by nlinarith
  have hb1a : ¬ ((10.1 : ℝ) * (π / 180)) ≤ 0 := not_le.mpr (by positivity)
  have hb1b : ¬ ((10.1 : ℝ) * (π / 180)) < 0.174533 := by
    intro h
    nlinarith
  simp only [altitude_to_airmass]
  rw [if_neg hb2a, if_pos hb2b, if_neg hb1a, if_neg hb1b, Real.log_exp,
    EReal.coe_lt_coe_iff]
  set a2 : ℝ := 10 * (π / 180) with ha2
  set a1 : ℝ := (10.1 : ℝ) * (π / 180) with ha1
  have h2pos : 0 < a2 := by rw [ha2]; positivity
  have h1pos : 0 < a1 := by rw [ha1]; positivity
  have h21 : a2 < a1 := by rw [ha1, ha2]; nlinarith
  have hsin1pos : 0 < Real.sin a1 := by
    apply Real.sin_pos_of_pos_of_lt_pi h1pos
    rw [ha1]
    nlinarith
  have hdiff : Real.sin a1 - Real.sin a2 ≤ a1 - a2 := by
    have hss := Real.sin_sub_sin a1 a2
    have hhalf : (0 : ℝ) ≤ (a1 - a2) / 2 := by linarith
    have hs1 : Real.sin ((a1 - a2) / 2) ≤ (a1 - a2) / 2 := Real.sin_le hhalf
    have hs0 : 0 ≤ Real.sin ((a1 - a2) / 2) := by
      apply Real.sin_nonneg_of_nonneg_of_le_pi hhalf
      rw [ha1, ha2]
      nlinarith
    have hc1 : Real.cos ((a1 + a2) / 2) ≤ 1 := Real.cos_le_one _
    nlinarith [hss, hs1, hs0, hc1]
  have hgap : a1 - a2 < 0.025 * (a2 + 0.15 * a2 ^ 2) := by
    rw [ha1, ha2]
    nlinarith [sq_nonneg (10 * (π / 180))]
  have hkey : Real.sin a1 < Real.sin a2 + 0.025 * (a2 + 0.15 * a2 ^ 2) := by
    linarith
  have hXpos : 0 < Real.sin a2 + 0.025 * (a2 + 0.15 * a2 ^ 2) := by
    linarith
  exact one_div_lt_one_div_of_lt hsin1pos hkey

/-- C4 amended: `airmass(90°) = 1` exactly; `airmass(alt) = +∞` for every
`alt ≤ 0°`; and airmass strictly increases as altitude decreases *within each
formula branch* — on altitudes whose radian value lies below the `0.174533`
crossover, and on altitudes at or above it (up to 90°) — while monotonicity
fails across the crossover (see the counterexample theorem). -/
theorem altitude_to_airmass_invariants :
    (altitude_to_airmass 90 = ((1 : ℝ) : EReal)) ∧
    (∀ alt : ℝ, alt ≤ 0 → altitude_to_airmass alt = ⊤) ∧
    (∀ alt1 alt2 : ℝ, 0 < alt2 → alt2 < alt1 → alt1 * (π / 180) < 0.174533 →
      altitude_to_airmass alt1 < altitude_to_airmass alt2) ∧
    (∀ alt1 alt2 : ℝ, 0.174533 ≤ alt2 * (π / 180) → alt2 < alt1 → alt1 ≤ 90 →
      altitude_to_airmass alt1 < altitude_to_airmass alt2) := by
  have hpg := Real.pi_gt_3141592
  have hpl := Real.pi_lt_3141593
  have hpi := Real.pi_pos
  refine ⟨?_, ?_, ?_, ?_⟩
  · have hb1 : ¬ ((90 : ℝ) * (π / 180)) ≤ 0 := not_le.mpr (by positivity)
    have hb2 : ¬ ((90 : ℝ) * (π / 180)) < 0.174533 := by
      intro h
      nlinarith
    simp only [altitude_to_airmass]
    rw [if_neg hb1, if_neg hb2, show (90 : ℝ) * (π / 180) = π / 2 by ring,
      Real.sin_pi_div_two]
    norm_num
  · intro alt halt
    have hb : alt * (π / 180) ≤ 0 :=
      mul_nonpos_of_nonpos_of_nonneg halt (by positivity)
    simp only [altitude_to_airmass]
    rw [if_pos hb]
  · intro alt1 alt2 h2pos h21 h1lt
    have hr2pos : 0 < alt2 * (π / 180) := by positivity
    have hr21 : alt2 * (π / 180) < alt1 * (π / 180) := by nlinarith
    have hr2lt : alt2 * (π / 180) < 0.174533 := lt_trans hr21 h1lt
    have hr1pos : 0 < alt1 * (π / 180) := lt_trans hr2pos hr21
    simp only [altitude_to_airmass]
    rw [if_neg (not_le.mpr hr1pos), if_pos h1lt, if_neg (not_le.mpr hr2pos),
      if_pos hr2lt, Real.log_exp, Real.log_exp, EReal.coe_lt_coe_iff]
    set b1 : ℝ := alt1 * (π / 180)
    set b2 : ℝ := alt2 * (π / 180)
    have hsin2pos : 0 < Real.sin b2 := by
      apply Real.sin_pos_of_pos_of_lt_pi hr2pos
      nlinarith
    have hsinmono : Real.sin b2 < Real.sin b1 :=
      Real.sin_lt_sin_of_lt_of_le_pi_div_two (by nlinarith) (by nlinarith) hr21
    have hpoly : b2 + 0.15 * b2 ^ 2 < b1 + 0.15 * b1 ^ 2 := by nlinarith
    have hf2pos : 0 < Real.sin b2 + 0.025 * (b2 + 0.15 * b2 ^ 2) := by nlinarith
    have hkey : Real.sin b2 + 0.025 * (b2 + 0.15 * b2 ^ 2) <
        Real.sin b1 + 0.025 * (b1 + 0.15 * b1 ^ 2) := by nlinarith
    exact one_div_lt_one_div_of_lt hf2pos hkey
  · intro alt1 alt2 h2ge h21 h1le
    have hr21 : alt2 * (π / 180) < alt1 * (π / 180) := by nlinarith
    have hr1ge : 0.174533 ≤ alt1 * (π / 180) := le_of_lt (lt_of_le_of_lt h2ge hr21)
    have hr2pos : 0 < alt2 * (π / 180) := by nlinarith
    have hr1pos : 0 < alt1 * (π / 180) := by nlinarith
    have hr1le : alt1 * (π / 180) ≤ π / 2 := by nlinarith
    simp only [altitude_to_airmass]
    rw [if_neg (not_le.mpr hr1pos), if_neg (not_lt.mpr hr1ge),
      if_neg (not_le.mpr hr2pos), if_neg (not_lt.mpr h2ge), EReal.coe_lt_coe_iff]
    have hsin2pos : 0 < Real.sin (alt2 * (π / 180)) := by
      apply Real.sin_pos_of_pos_of_lt_pi hr2pos
      nlinarith
    have hsinmono : Real.sin (alt2 * (π / 180)) < Real.sin (alt1 * (π / 180)) :=
      Real.sin_lt_sin_of_lt_of_le_pi_div_two (by nlinarith) hr1le hr21
    exact one_div_lt_one_div_of_lt hsin2pos hsinmono

/-- Witness for the C4 amended theorem: concrete altitudes in each branch. -/
theorem altitude_to_airmass_invariants_witness :
    altitude_to_airmass (-5) = ⊤ ∧
    altitude_to_airmass 9 < altitude_to_airmass 5 ∧
    altitude_to_airmass 30 < altitude_to_airmass 20 := by
  obtain ⟨_, htop, hroz, hsec⟩ := altitude_to_airmass_invariants
  have hpg := Real.pi_gt_3141592
  have hpl := Real.pi_lt_3141593
  refine ⟨htop (-5) (by norm_num), ?_, ?_⟩
  · exact hroz 9 5 (by norm_num) (by norm_num) (by nlinarith)
  · exact hsec 30 20 (by nlinarith) (by norm_num) (by norm_num)

/-! ## Eclipse evaluator (src/constraints/eclipse.rs) -/

/-- Earth equatorial radius (km), `EARTH_RADIUS` in src/constraints.rs:577 and
`EARTH_RADIUS_KM` of `utils::config` consumed by eclipse.rs. -/
def EARTH_RADIUS_KM : ℝ := 6378.137

/-- Mean Sun radius (km), `SUN_RADIUS` in src/constraints.rs:736 and
`SUN_RADIUS_KM` of `utils::config` consumed by eclipse.rs. -/
def SUN_RADIUS_KM : ℝ := 696000.0

/-- `EclipseEvaluator::shadow_geometry` (src/constraints/eclipse.rs:31-78):
`none` when the Sun position is degenerate or the observer is on the day side;
otherwise `(dist_to_axis, umbra_radius, penumbra_radius)` at the observer's
along-axis shadow distance `s = -dot`. -/
def shadow_geometry (obs_pos sun_pos : Vec3) : Option (ℝ × ℝ × ℝ) :=
  let sun_dist := vector_magnitude sun_pos
  if sun_dist ≤ 0 then none
  else
    let sun_unit : Vec3 :=
      (sun_pos.1 / sun_dist, sun_pos.2.1 / sun_dist, sun_pos.2.2 / sun_dist)
    let dot := obs_pos.1 * sun_unit.1 + obs_pos.2.1 * sun_unit.2.1 +
      obs_pos.2.2 * sun_unit.2.2
    if dot ≥ 0 then none
    else
      let s := -dot
      let perp : Vec3 :=
        (obs_pos.1 - sun_unit.1 * dot, obs_pos.2.1 - sun_unit.2.1 * dot,
         obs_pos.2.2 - sun_unit.2.2 * dot)
      let dist_to_axis := vector_magnitude perp
      let l_umbra := EARTH_RADIUS_KM * sun_dist / (SUN_RADIUS_KM - EARTH_RADIUS_KM)
      let l_penumbra := EARTH_RADIUS_KM * sun_dist / (SUN_RADIUS_KM + EARTH_RADIUS_KM)
      let umbra_radius := if s ≤ l_umbra then EARTH_RADIUS_KM * (1 - s / l_umbra) else 0
      let penumbra_radius := EARTH_RADIUS_KM * (1 + s / l_penumbra)
      some (dist_to_axis, umbra_radius, penumbra_radius)

/-- `EclipseEvaluator::shadow_status` (src/constraints/eclipse.rs:80-98). -/
def shadow_status (umbra_only : Bool) (obs_pos sun_pos : Vec3) : Bool × ℝ :=
  match shadow_geometry obs_pos sun_pos with
  | some (dist_to_axis, umbra_radius, penumbra_radius) =>
      if umbra_radius > 0 ∧ dist_to_axis < umbra_radius then
        (true, 1 - dist_to_axis / umbra_radius)
      else if ¬ umbra_only = true ∧ dist_to_axis < penumbra_radius then
        (true, 0.5 * ((penumbra_radius - dist_to_axis) /
          max (penumbra_radius - umbra_radius) 1e-9))
      else (false, 0)
  | none => (false, 0)

/-- C5: for every observer on the night side with along-axis shadow distance
`s < L_umbra`, the penumbra radius strictly exceeds the umbra radius; and a
point whose perpendicular distance to the axis is the midpoint of the two
radii is classified violated (in penumbra, not umbra) when
`umbra_only = false` and not violated when `umbra_only = true`. -/
theorem eclipse_penumbra_exceeds_umbra_midpoint
    (obs_pos sun_pos : Vec3) (dist ru rp : ℝ)
    (hgeom : shadow_geometry obs_pos sun_pos = some (dist, ru, rp))
    (hsL : -(obs_pos.1 * (sun_pos.1 / vector_magnitude sun_pos) +
             obs_pos.2.1 * (sun_pos.2.1 / vector_magnitude sun_pos) +
             obs_pos.2.2 * (sun_pos.2.2 / vector_magnitude sun_pos)) <
           EARTH_RADIUS_KM * vector_magnitude sun_pos /
             (SUN_RADIUS_KM - EARTH_RADIUS_KM)) :
    ru < rp ∧
    (dist = (ru + rp) / 2 →
      (shadow_status false obs_pos sun_pos).1 = true ∧
      shadow_status true obs_pos sun_pos = (false, 0)) := by
  have hER : (0 : ℝ) < EARTH_RADIUS_KM := by unfold EARTH_RADIUS_KM; norm_num
  have hSR : EARTH_RADIUS_KM < SUN_RADIUS_KM := by
    unfold EARTH_RADIUS_KM SUN_RADIUS_KM; norm_num
  simp only [shadow_geometry] at hgeom
  split_ifs at hgeom with h1 h2 h3
  · -- main branch: sun_dist > 0, dot < 0, s ≤ l_umbra
    rw [Option.some_inj, Prod.mk.injEq, Prod.mk.injEq] at hgeom
    obtain ⟨hdist, hru, hrp⟩ := hgeom
    have h1p : 0 < vector_magnitude sun_pos := lt_of_not_le h1
    have h2n : obs_pos.1 * (sun_pos.1 / vector_magnitude sun_pos) +
        obs_pos.2.1 * (sun_pos.2.1 / vector_magnitude sun_pos) +
        obs_pos.2.2 * (sun_pos.2.2 / vector_magnitude sun_pos) < 0 :=
      lt_of_not_le h2
    set sd := vector_magnitude sun_pos with hsd
    set dotv := obs_pos.1 * (sun_pos.1 / sd) + obs_pos.2.1 * (sun_pos.2.1 / sd) +
      obs_pos.2.2 * (sun_pos.2.2 / sd) with hdotv
    have hspos : 0 < -dotv := by linarith
    have hlumbra : 0 < EARTH_RADIUS_KM * sd / (SUN_RADIUS_KM - EARTH_RADIUS_KM) := by
      apply div_pos (mul_pos hER h1p)
      linarith
    have hlpen : 0 < EARTH_RADIUS_KM * sd / (SUN_RADIUS_KM + EARTH_RADIUS_KM) := by
      apply div_pos (mul_pos hER h1p)
      linarith
    have hrult : ru < EARTH_RADIUS_KM := by
      rw [← hru]
      have hq : 0 < -dotv / (EARTH_RADIUS_KM * sd / (SUN_RADIUS_KM - EARTH_RADIUS_KM)) :=
        div_pos hspos hlumbra
      nlinarith [mul_pos hER hq]
    have hrpgt : EARTH_RADIUS_KM < rp := by
      rw [← hrp]
      have hq : 0 < -dotv / (EARTH_RADIUS_KM * sd / (SUN_RADIUS_KM + EARTH_RADIUS_KM)) :=
        div_pos hspos hlpen
      nlinarith [mul_pos hER hq]
    have hurp : ru < rp := lt_trans hrult hrpgt
    refine ⟨hurp, ?_⟩
    intro hmid
    have hnotumbra : ¬ (ru > 0 ∧ dist < ru) := by
      rintro ⟨_, hlt⟩
      rw [hmid] at hlt
      linarith
    have hinpen : dist < rp := by
      rw [hmid]
      linarith
    have hgeq : shadow_geometry obs_pos sun_pos = some (dist, ru, rp) := by
      simp only [shadow_geometry]
      rw [if_neg h1, if_neg h2, if_pos h3, Option.some_inj, Prod.mk.injEq,
        Prod.mk.injEq]
      exact ⟨hdist, hru, hrp⟩
    constructor
    · simp only [shadow_status, hgeq]
      rw [if_neg hnotumbra, if_pos (by simp [hinpen])]
    · simp only [shadow_status, hgeq]
      rw [if_neg hnotumbra, if_neg (by simp)]
  · -- the umbra ite cannot take its else branch: s < l_umbra by hypothesis
    exact absurd (le_of_lt hsL) h3

/-- Sun at 10^6 km along the x-axis for the C5 witness. -/
def c5SunPos : Vec3 := (1000000, 0, 0)

/-- Umbra cone length for the C5 witness geometry. -/
def c5LU : ℝ := EARTH_RADIUS_KM * 1000000 / (SUN_RADIUS_KM - EARTH_RADIUS_KM)

/-- Penumbra cone length for the C5 witness geometry. -/
def c5LP : ℝ := EARTH_RADIUS_KM * 1000000 / (SUN_RADIUS_KM + EARTH_RADIUS_KM)

/-- Umbra radius at shadow distance 1 km for the C5 witness geometry. -/
def c5RU : ℝ := EARTH_RADIUS_KM * (1 - 1 / c5LU)

/-- Penumbra radius at shadow distance 1 km for the C5 witness geometry. -/
def c5RP : ℝ := EARTH_RADIUS_KM * (1 + 1 / c5LP)

/-- Observer 1 km behind Earth on the anti-solar axis, offset sideways to the
midpoint of the umbra and penumbra radii. -/
def c5Obs : Vec3 := (-1, (c5RU + c5RP) / 2, 0)

/-- Witness for C5 at the concrete geometry above. -/
theorem eclipse_penumbra_exceeds_umbra_midpoint_witness :
    shadow_geometry c5Obs c5SunPos = some ((c5RU + c5RP) / 2, c5RU, c5RP) ∧
    c5RU < c5RP ∧
    (shadow_status false c5Obs c5SunPos).1 = true ∧
    shadow_status true c5Obs c5SunPos = (false, 0) := by
  have hmag : vector_magnitude ((1000000 : ℝ), (0 : ℝ), (0 : ℝ)) = 1000000 := by
    unfold vector_magnitude
    rw [show (1000000 : ℝ) * 1000000 + 0 * 0 + 0 * 0 = 1000000 ^ 2 by ring]
    exact Real.sqrt_sq (by norm_num)
  have hd0 : (0 : ℝ) ≤ (c5RU + c5RP) / 2 := by
    unfold c5RU c5RP c5LU c5LP EARTH_RADIUS_KM SUN_RADIUS_KM
    norm_num
  have hgeom : shadow_geometry c5Obs c5SunPos = some ((c5RU + c5RP) / 2, c5RU, c5RP) := by
    simp only [shadow_geometry, c5Obs, c5SunPos, hmag]
    rw [if_neg (by norm_num : ¬ (1000000 : ℝ) ≤ 0)]
    rw [show (-1 : ℝ) * (1000000 / 1000000) + (c5RU + c5RP) / 2 * (0 / 1000000) +
      0 * (0 / 1000000) = -1 by norm_num]
    rw [if_neg (by norm_num : ¬ (-1 : ℝ) ≥ 0)]
    rw [show (-1 : ℝ) - 1000000 / 1000000 * (-1) = 0 by norm_num]
    rw [show (c5RU + c5RP) / 2 - 0 / 1000000 * (-1) = (c5RU + c5RP) / 2 by norm_num]
    rw [show (0 : ℝ) - 0 / 1000000 * (-1) = 0 by norm_num]
    have hdist : vector_magnitude ((0 : ℝ), (c5RU + c5RP) / 2, (0 : ℝ)) =
        (c5RU + c5RP) / 2 := by
      unfold vector_magnitude
      rw [show (0 : ℝ) * 0 + (c5RU + c5RP) / 2 * ((c5RU + c5RP) / 2) + 0 * 0 =
        ((c5RU + c5RP) / 2) ^ 2 by ring]
      exact Real.sqrt_sq hd0
    rw [hdist]
    rw [show -(-1 : ℝ) = 1 by norm_num]
    rw [if_pos (by unfold EARTH_RADIUS_KM SUN_RADIUS_KM; norm_num :
      (1 : ℝ) ≤ EARTH_RADIUS_KM * 1000000 / (SUN_RADIUS_KM - EARTH_RADIUS_KM))]
    unfold c5RU c5RP c5LU c5LP
    rfl
  have hsL : -(c5Obs.1 * (c5SunPos.1 / vector_magnitude c5SunPos) +
      c5Obs.2.1 * (c5SunPos.2.1 / vector_magnitude c5SunPos) +
      c5Obs.2.2 * (c5SunPos.2.2 / vector_magnitude c5SunPos)) <
      EARTH_RADIUS_KM * vector_magnitude c5SunPos /
        (SUN_RADIUS_KM - EARTH_RADIUS_KM) := by
    simp only [c5Obs, c5SunPos, hmag]
    norm_num [EARTH_RADIUS_KM, SUN_RADIUS_KM]
  have h := eclipse_penumbra_exceeds_umbra_midpoint c5Obs c5SunPos _ _ _ hgeom hsL
  exact ⟨hgeom, h.1, (h.2 rfl).1, (h.2 rfl).2⟩

/-! ## Altitude/azimuth evaluator (src/constraints/alt_az.rs) -/

/-- `AltAzEvaluator` (src/constraints/alt_az.rs:37-42). -/
structure AltAzEvaluator where
  min_altitude : ℝ
  max_altitude : Option ℝ
  min_azimuth : Option ℝ
  max_azimuth : Option ℝ

/-- `AltAzEvaluator::calculate_alt_az` (src/constraints/alt_az.rs:237-247):
ignores both arguments and returns the constants `(45.0, 180.0)`. -/
def calculate_alt_az (_target_unit _observer_pos : Vec3) : ℝ × ℝ := (45, 180)

/-- The `(violated, severity)` chain shared verbatim by the per-sample closure
of `AltAzEvaluator::evaluate` (src/constraints/alt_az.rs:90-137) and, without
the severities, by the batch loop body (src/constraints/alt_az.rs:182-215). -/
def altAzCheck (ev : AltAzEvaluator) (altitude_deg azimuth_deg : ℝ) : Bool × ℝ :=
  let v1 : Bool := decide (altitude_deg < ev.min_altitude)
  let s1 : ℝ := if altitude_deg < ev.min_altitude
    then min (ev.min_altitude - altitude_deg) 1 else 1
  let p2 : Bool × ℝ :=
    match ev.max_altitude with
    | some max_altitude =>
        if altitude_deg > max_altitude
        then (true, min (altitude_deg - max_altitude) 1) else (v1, s1)
    | none => (v1, s1)
  if p2.1 then p2
  else
    match ev.min_azimuth, ev.max_azimuth with
    | some min_azimuth, some max_azimuth =>
        let az_in_range : Bool := if min_azimuth ≤ max_azimuth
          then decide (azimuth_deg ≥ min_azimuth) && decide (azimuth_deg ≤ max_azimuth)
          else decide (azimuth_deg ≥ min_azimuth) || decide (azimuth_deg ≤ max_azimuth)
        if !az_in_range then (true, 1) else p2
    | some min_azimuth, none =>
        if azimuth_deg < min_azimuth
        then (true, min (min_azimuth - azimuth_deg) 1) else p2
    | none, some max_azimuth =>
        if azimuth_deg > max_azimuth
        then (true, min (azimuth_deg - max_azimuth) 1) else p2
    | none, none => p2

/-- The per-sample `(violated, severity)` pair of `AltAzEvaluator::evaluate`. -/
def altAzSampleAt (ev : AltAzEvaluator) (target_unit observer_pos : Vec3) : Bool × ℝ :=
  let altaz := calculate_alt_az target_unit observer_pos
  altAzCheck ev altaz.1 altaz.2

/-- Matrix entry `result[[j, i]]` written by `AltAzEvaluator::in_constraint_batch`
(src/constraints/alt_az.rs:157-222): the loop stores the `violated` boolean
itself. -/
def altAzBatchEntry (ev : AltAzEvaluator) (target_unit observer_pos : Vec3) : Bool :=
  let altaz := calculate_alt_az target_unit observer_pos
  (altAzCheck ev altaz.1 altaz.2).1

/-! ## Moon phase evaluator (src/constraints/moon_phase.rs) -/

/-- `MoonPhaseEvaluator` (src/constraints/moon_phase.rs:105-112). -/
structure MoonPhaseEvaluator where
  max_illumination : ℝ
  min_illumination : Option ℝ
  min_distance : Option ℝ
  max_distance : Option ℝ
  enforce_when_below_horizon : Bool
  moon_visibility : String

/-- `MoonPhaseEvaluator::is_moon_visible` (src/constraints/moon_phase.rs:289-295). -/
def is_moon_visible (ev : MoonPhaseEvaluator) (altitude : ℝ) : Bool :=
  if ev.moon_visibility = "full" then decide (altitude ≥ 0)
  else if ev.moon_visibility = "partial" then decide (altitude ≥ -0.5)
  else decide (altitude ≥ 0)

/-- The Moon angular distance (degrees) computed in
`MoonPhaseEvaluator::evaluate` (src/constraints/moon_phase.rs:344-347) from a
raw cosine: clamp, `acos`, degrees. -/
def moonDistanceDeg (cos_angle : ℝ) : ℝ :=
  Real.arccos (fclamp cos_angle (-1) 1) * (180 / π)

/-- The per-sample `(violated, severity)` closure of
`MoonPhaseEvaluator::evaluate` (src/constraints/moon_phase.rs:351-392), as a
function of the per-index illumination, Moon altitude and Moon distance. -/
def moonPhaseSample (ev : MoonPhaseEvaluator)
    (illumination moon_altitude moon_distance : ℝ) : Bool × ℝ :=
  if ¬ ev.enforce_when_below_horizon = true ∧ ¬ is_moon_visible ev moon_altitude = true
  then (false, 0)
  else
    let v1 : Bool := decide (illumination > ev.max_illumination)
    let s1 : ℝ := if illumination > ev.max_illumination
      then min (illumination - ev.max_illumination) 1 else 1
    let p2 : Bool × ℝ :=
      match ev.min_illumination with
      | some min_illumination =>
          if illumination < min_illumination
          then (true, min (min_illumination - illumination) 1) else (v1, s1)
      | none => (v1, s1)
    let p3 : Bool × ℝ :=
      match ev.min_distance with
      | some min_distance =>
          if moon_distance < min_distance
          then (true, min (min_distance - moon_distance) 1) else p2
      | none => p2
    let p4 : Bool × ℝ :=
      match ev.max_distance with
      | some max_distance =>
          if moon_distance > max_distance
          then (true, min (moon_distance - max_distance) 1) else p3
      | none => p3
    p4

/-- Matrix entry `result[[j, i]]` written by
`MoonPhaseEvaluator::in_constraint_batch` (src/constraints/moon_phase.rs:515-558):
illumination violation shared across targets, then distance checks against the
cosine thresholds `min.to_radians().cos()` / `max.to_radians().cos()`; the loop
stores `target_violated` itself. -/
def moonPhaseBatchEntry (ev : MoonPhaseEvaluator)
    (illumination moon_altitude cos_angle : ℝ) : Bool :=
  if ¬ ev.enforce_when_below_horizon = true ∧ ¬ is_moon_visible ev moon_altitude = true
  then false
  else
    let illumination_violated : Bool :=
      decide (illumination > ev.max_illumination) ||
        (match ev.min_illumination with
         | some min_illumination => decide (illumination < min_illumination)
         | none => false)
    let c := fclamp cos_angle (-1) 1
    let tv1 : Bool := illumination_violated ||
      (match ev.min_distance with
       | some min_distance => decide (c > Real.cos (min_distance * (π / 180)))
       | none => false)
    let tv2 : Bool := tv1 ||
      (match ev.max_distance with
       | some max_distance => decide (c < Real.cos (max_distance * (π / 180)))
       | none => false)
    tv2

theorem arccos_lt_iff_cos_lt {c r : ℝ} (hc1 : -1 ≤ c) (hc2 : c ≤ 1)
    (hr0 : 0 ≤ r) (hrpi : r ≤ π) : Real.arccos c < r ↔ Real.cos r < c := by
  constructor
  · intro h
    have hmono := Real.strictAntiOn_cos
      ⟨Real.arccos_nonneg c, Real.arccos_le_pi c⟩ ⟨hr0, hrpi⟩ h
    rwa [Real.cos_arccos hc1 hc2] at hmono
  · intro h
    by_contra hle
    push_neg at hle
    have hmono : Real.cos (Real.arccos c) ≤ Real.cos r :=
      Real.strictAntiOn_cos.antitoneOn ⟨hr0, hrpi⟩
        ⟨Real.arccos_nonneg c, Real.arccos_le_pi c⟩ hle
    rw [Real.cos_arccos hc1 hc2] at hmono
    linarith

theorem lt_arccos_iff_lt_cos {c r : ℝ} (hc1 : -1 ≤ c) (hc2 : c ≤ 1)
    (hr0 : 0 ≤ r) (hrpi : r ≤ π) : r < Real.arccos c ↔ c < Real.cos r := by
  constructor
  · intro h
    have hmono := Real.strictAntiOn_cos ⟨hr0, hrpi⟩
      ⟨Real.arccos_nonneg c, Real.arccos_le_pi c⟩ h
    rwa [Real.cos_arccos hc1 hc2] at hmono
  · intro h
    by_contra hle
    push_neg at hle
    have hmono : Real.cos r ≤ Real.cos (Real.arccos c) :=
      Real.strictAntiOn_cos.antitoneOn
        ⟨Real.arccos_nonneg c, Real.arccos_le_pi c⟩ ⟨hr0, hrpi⟩ hle
    rw [Real.cos_arccos hc1 hc2] at hmono
    linarith

/-- Degrees-space distance test below a threshold equals the cosine-space test
used by the batch path, for thresholds in `[0°, 180°]`. -/
theorem moonDistanceDeg_lt_iff {cos_angle md : ℝ} (h0 : 0 ≤ md) (h180 : md ≤ 180) :
    (moonDistanceDeg cos_angle < md ↔
      fclamp cos_angle (-1) 1 > Real.cos (md * (π / 180))) := by
  have hpi := Real.pi_pos
  set c := fclamp cos_angle (-1) 1 with hc
  have hc1 : -1 ≤ c := le_max_left _ _
  have hc2 : c ≤ 1 := max_le (by norm_num) (min_le_right _ _)
  have hk : (0 : ℝ) < 180 / π := by positivity
  have hkk : md * (π / 180) = md / (180 / π) := by
    field_simp
  have hr0 : 0 ≤ md * (π / 180) := by positivity
  have hrpi : md * (π / 180) ≤ π := by
    calc md * (π / 180) ≤ 180 * (π / 180) :=
          mul_le_mul_of_nonneg_right h180 (by positivity)
      _ = π := by ring
  constructor
  · intro h
    have harc : Real.arccos c < md * (π / 180) := by
      rw [hkk, lt_div_iff hk]
      exact h
    exact (arccos_lt_iff_cos_lt hc1 hc2 hr0 hrpi).mp harc
  · intro h
    have harc : Real.arccos c < md * (π / 180) :=
      (arccos_lt_iff_cos_lt hc1 hc2 hr0 hrpi).mpr h
    rw [hkk, lt_div_iff hk] at harc
    exact harc

/-- Degrees-space distance test above a threshold equals the cosine-space test
used by the batch path, for thresholds in `[0°, 180°]`. -/
theorem moonDistanceDeg_gt_iff {cos_angle xd : ℝ} (h0 : 0 ≤ xd) (h180 : xd ≤ 180) :
    (moonDistanceDeg cos_angle > xd ↔
      fclamp cos_angle (-1) 1 < Real.cos (xd * (π / 180))) := by
  have hpi := Real.pi_pos
  set c := fclamp cos_angle (-1) 1 with hc
  have hc1 : -1 ≤ c := le_max_left _ _
  have hc2 : c ≤ 1 := max_le (by norm_num) (min_le_right _ _)
  have hk : (0 : ℝ) < 180 / π := by positivity
  have hkk : xd * (π / 180) = xd / (180 / π) := by
    field_simp
  have hr0 : 0 ≤ xd * (π / 180) := by positivity
  have hrpi : xd * (π / 180) ≤ π := by
    calc xd * (π / 180) ≤ 180 * (π / 180) :=
          mul_le_mul_of_nonneg_right h180 (by positivity)
      _ = π := by ring
  constructor
  · intro h
    have harc : xd * (π / 180) < Real.arccos c := by
      rw [hkk, div_lt_iff hk]
      exact h
    exact (lt_arccos_iff_lt_cos hc1 hc2 hr0 hrpi).mp harc
  · intro h
    have harc : xd * (π / 180) < Real.arccos c :=
      (lt_arccos_iff_lt_cos hc1 hc2 hr0 hrpi).mpr h
    rw [hkk, div_lt_iff hk] at harc
    exact harc

/-- First component of a conditional pair update. -/
theorem fst_ite_update (cnd : Prop) [Decidable cnd] (s' : ℝ) (p : Bool × ℝ) :
    (if cnd then ((true : Bool), s') else p).1 = (p.1 || decide cnd) := by
  by_cases h : cnd <;> simp [h]

/-- C1 counterexample: the daytime batch matrix stores `true` at a sample that
is violated (Sun altitude 0.1 > threshold 0, `allow_daytime = false`), so the
entry is not "true iff satisfied". -/
theorem in_constraint_batch_polarity_counterexample :
    daytimeBatchEntry ⟨false, .NoTwilight⟩ (fun _ => (0, 0, 0)) (fun _ => (0, 0, 0)) 0 0
      = true ∧
    daytimeViolatedAt ⟨false, .NoTwilight⟩ (fun _ => (0, 0, 0)) (fun _ => (0, 0, 0)) 0
      = true ∧
    daytimeBatchEntry ⟨false, .NoTwilight⟩ (fun _ => (0, 0, 0)) (fun _ => (0, 0, 0)) 0 0
      ≠ !(daytimeViolatedAt ⟨false, .NoTwilight⟩ (fun _ => (0, 0, 0))
          (fun _ => (0, 0, 0)) 0) := by
  have hv : daytimeViolatedAt ⟨false, .NoTwilight⟩ (fun _ => (0, 0, 0))
      (fun _ => (0, 0, 0)) 0 = true := by
    unfold daytimeViolatedAt calculate_sun_altitude twilight_angle
    norm_num
  have hb : daytimeBatchEntry ⟨false, .NoTwilight⟩ (fun _ => (0, 0, 0))
      (fun _ => (0, 0, 0)) 0 0 = true := by
    unfold daytimeBatchEntry calculate_sun_altitude twilight_angle
    norm_num
  refine ⟨hb, hv, ?_⟩
  rw [hb, hv]
  simp

/-- C1 amended: for the alt-az, daytime and moon-phase evaluators the batch
matrix entry `(j, i)` equals the per-sample *violation* verdict — polarity
inverted relative to the claim's "true iff satisfied" (which holds for the
airmass, orbit-pole and SAA batch paths, e.g. `orbitPoleInConstraintBatch`
stores `!violated`). The moon-phase equality requires the configured distance
thresholds to lie in `[0°, 180°]`, where the batch path's cosine-space tests
agree with the streaming path's degree-space tests. -/
theorem in_constraint_batch_polarity_amended :
    (∀ (ev : DaytimeEvaluator) (sun_positions observer_positions : ℕ → Vec3) (j i : ℕ),
      daytimeBatchEntry ev sun_positions observer_positions j i =
        daytimeViolatedAt ev sun_positions observer_positions i) ∧
    (∀ (ev : AltAzEvaluator) (target_unit observer_pos : Vec3),
      altAzBatchEntry ev target_unit observer_pos =
        (altAzSampleAt ev target_unit observer_pos).1) ∧
    (∀ (ev : MoonPhaseEvaluator) (illumination moon_altitude cos_angle : ℝ),
      (∀ md, ev.min_distance = some md → 0 ≤ md ∧ md ≤ 180) →
      (∀ xd, ev.max_distance = some xd → 0 ≤ xd ∧ xd ≤ 180) →
      moonPhaseBatchEntry ev illumination moon_altitude cos_angle =
        (moonPhaseSample ev illumination moon_altitude
          (moonDistanceDeg cos_angle)).1) := by
  refine ⟨fun _ _ _ _ _ => rfl, fun _ _ _ => rfl, ?_⟩
  intro ev illumination moon_altitude cos_angle hmin hmax
  unfold moonPhaseBatchEntry moonPhaseSample
  by_cases hgate : ¬ ev.enforce_when_below_horizon = true ∧
      ¬ is_moon_visible ev moon_altitude = true
  · rw [if_pos hgate, if_pos hgate]
  · rw [if_neg hgate, if_neg hgate]
    rcases hmd : ev.min_distance with _ | md <;>
      rcases hxd : ev.max_distance with _ | xd <;>
        rcases hmi : ev.min_illumination with _ | mi <;>
          simp only [fst_ite_update, Bool.false_or] <;>
          rw [Bool.eq_iff_iff] <;>
          simp only [Bool.or_eq_true, decide_eq_true_eq] <;>
          first
          | tauto
          | (have h1 := @moonDistanceDeg_lt_iff cos_angle md (hmin md hmd).1
               (hmin md hmd).2
             have h2 := @moonDistanceDeg_gt_iff cos_angle xd (hmax xd hxd).1
               (hmax xd hxd).2
             tauto)
          | (have h1 := @moonDistanceDeg_lt_iff cos_angle md (hmin md hmd).1
               (hmin md hmd).2
             tauto)
          | (have h2 := @moonDistanceDeg_gt_iff cos_angle xd (hmax xd hxd).1
               (hmax xd hxd).2
             tauto)

/-- Witness for the C1 amended theorem at concrete configurations. -/
theorem in_constraint_batch_polarity_amended_witness :
    daytimeBatchEntry ⟨true, .Civil⟩ (fun _ => (0, 0, 0)) (fun _ => (0, 0, 0)) 0 0 =
      daytimeViolatedAt ⟨true, .Civil⟩ (fun _ => (0, 0, 0)) (fun _ => (0, 0, 0)) 0 ∧
    altAzBatchEntry ⟨0, none, none, none⟩ (1, 0, 0) (0, 0, 0) =
      (altAzSampleAt ⟨0, none, none, none⟩ (1, 0, 0) (0, 0, 0)).1 ∧
    moonPhaseBatchEntry ⟨0.5, none, some 10, some 90, false, "full"⟩ 0.3 10 0.2 =
      (moonPhaseSample ⟨0.5, none, some 10, some 90, false, "full"⟩ 0.3 10
        (moonDistanceDeg 0.2)).1 := by
  obtain ⟨hd, ha, hm⟩ := in_constraint_batch_polarity_amended
  refine ⟨hd _ _ _ 0 0, ha _ _ _, hm _ 0.3 10 0.2 ?_ ?_⟩
  · intro md h
    rw [Option.some_inj] at h
    rw [← h]
    norm_num
  · intro xd h
    rw [Option.some_inj] at h
    rw [← h]
    norm_num

/-! ## Moon illumination (src/utils/moon.rs)

`calculate_moon_illumination` takes positions from the (out-of-scope)
`utils::celestial` collaborator; the arithmetic it performs on those two
position vectors (src/utils/moon.rs:28-56) is embedded here over `Option ℝ`,
where `none` marks a non-finite value (NaN, or an infinity that the next
`asin`/`acos` turns into NaN): division by a zero magnitude and `asin`/`acos`
outside `[-1, 1]` produce `none`, and `none` propagates. -/

/-- `f64::atan2` for finite arguments (total, never NaN). -/
def atan2 (y x : ℝ) : ℝ :=
  if x > 0 then Real.arctan (y / x)
  else if x < 0 then
    (if y ≥ 0 then Real.arctan (y / x) + π else Real.arctan (y / x) - π)
  else if y > 0 then π / 2
  else if y < 0 then -(π / 2)
  else 0

/-- `f64::asin` with NaN (`none`) outside `[-1, 1]`. -/
def fasin (x : ℝ) : Option ℝ := if |x| ≤ 1 then some (Real.arcsin x) else none

/-- `f64::acos` with NaN (`none`) outside `[-1, 1]`. -/
def facos (x : ℝ) : Option ℝ := if |x| ≤ 1 then some (Real.arccos x) else none

/-- Division whose result feeds `asin`: a zero divisor yields a non-finite
value (`±inf` or NaN), which `asin` maps to NaN — marked `none`. -/
def fdiv (x y : ℝ) : Option ℝ := if y = 0 then none else some (x / y)

/-- `calculate_moon_illumination` (src/utils/moon.rs:13-57), as a function of
the Sun and Moon position vectors obtained from the ephemeris collaborator:
RA/Dec of both bodies, spherical-law-of-cosines separation, illumination
`(1 - cos(separation)) / 2`. Neither `asin` argument (`z/r`) nor the `acos`
argument (`cos_d`) is clamped in the source. -/
def calculate_moon_illumination (sun_pos moon_pos : Vec3) : Option ℝ :=
  let sun_r := vector_magnitude sun_pos
  let sun_ra := atan2 sun_pos.2.1 sun_pos.1 * (180 / π)
  let moon_r := vector_magnitude moon_pos
  let moon_ra := atan2 moon_pos.2.1 moon_pos.1 * (180 / π)
  do
    let sdr ← fdiv sun_pos.2.2 sun_r
    let sun_dec0 ← fasin sdr
    let sun_dec := sun_dec0 * (180 / π)
    let mdr ← fdiv moon_pos.2.2 moon_r
    let moon_dec0 ← fasin mdr
    let moon_dec := moon_dec0 * (180 / π)
    let ra_diff := (sun_ra - moon_ra) * (π / 180)
    let dec1 := sun_dec * (π / 180)
    let dec2 := moon_dec * (π / 180)
    let cos_d := Real.sin dec1 * Real.sin dec2 +
      Real.cos dec1 * Real.cos dec2 * Real.cos ra_diff
    let angular_separation ← facos cos_d
    return (1 - Real.cos angular_separation) / 2

/-- C8 counterexample: a finite input (zero-magnitude Moon position) on which
`calculate_moon_illumination` produces a non-finite result — the `asin`
argument `moon_z / moon_r` is `0/0 = NaN`, unclamped, and propagates. -/
theorem moon_illumination_nan_counterexample :
    calculate_moon_illumination (1, 0, 0) (0, 0, 0) = none := by
  have hsr : vector_magnitude ((1 : ℝ), (0 : ℝ), (0 : ℝ)) = 1 := by
    unfold vector_magnitude
    norm_num
  have hmr : vector_magnitude ((0 : ℝ), (0 : ℝ), (0 : ℝ)) = 0 := by
    unfold vector_magnitude
    norm_num
  unfold calculate_moon_illumination
  simp only [hsr, hmr, fdiv, fasin]
  norm_num [Option.bind]

/-- C8 amended: `calculate_angular_separation` clamps its `acos` argument and
is always well-defined, with values in `[0°, 180°]`; `calculate_moon_illumination`
does *not* clamp its `asin`/`acos` arguments and produces a non-finite value
on zero-magnitude inputs (see the counterexample), but whenever both position
vectors have nonzero magnitude every `asin`/`acos` argument stays within
`[-1, 1]` in exact arithmetic and the illumination is a value in `[0, 1]`
(never NaN). -/
theorem moon_illumination_amended :
    (∀ t b o : Vec3, 0 ≤ calculate_angular_separation t b o ∧
      calculate_angular_separation t b o ≤ 180) ∧
    (∀ sun_pos moon_pos : Vec3, vector_magnitude sun_pos ≠ 0 →
      vector_magnitude moon_pos ≠ 0 →
      ∃ v, calculate_moon_illumination sun_pos moon_pos = some v ∧
        0 ≤ v ∧ v ≤ 1) := by
  constructor
  · intro t b o
    unfold calculate_angular_separation
    constructor
    · exact mul_nonneg (Real.arccos_nonneg _) (by positivity)
    · calc Real.arccos (fclamp (dot_product t (normalize_vector (vsub b o))) (-1) 1) *
            (180 / π) ≤ π * (180 / π) :=
            mul_le_mul_of_nonneg_right (Real.arccos_le_pi _) (by positivity)
        _ = 180 := by
            field_simp
  · intro sun_pos moon_pos hs hm
    have habs : ∀ v : Vec3, |v.2.2| ≤ vector_magnitude v := by
      intro v
      unfold vector_magnitude
      rw [← Real.sqrt_mul_self_eq_abs]
      apply Real.sqrt_le_sqrt
      nlinarith [sq_nonneg v.1, sq_nonneg v.2.1]
    have hsrpos : 0 < vector_magnitude sun_pos :=
      lt_of_le_of_ne (Real.sqrt_nonneg _) (Ne.symm hs)
    have hmrpos : 0 < vector_magnitude moon_pos :=
      lt_of_le_of_ne (Real.sqrt_nonneg _) (Ne.symm hm)
    have hsz : |sun_pos.2.2 / vector_magnitude sun_pos| ≤ 1 := by
      rw [abs_div, abs_of_pos hsrpos]
      exact div_le_one_of_le (habs sun_pos) (le_of_lt hsrpos)
    have hmz : |moon_pos.2.2 / vector_magnitude moon_pos| ≤ 1 := by
      rw [abs_div, abs_of_pos hmrpos]
      exact div_le_one_of_le (habs moon_pos) (le_of_lt hmrpos)
    have htri : ∀ x : ℝ, x * (180 / π) * (π / 180) = x := by
      intro x
      have hpi := Real.pi_ne_zero
      field_simp
    unfold calculate_moon_illumination
    simp only [fdiv, fasin, hs, hm, if_false, ite_false, hsz, if_true, ite_true,
      hmz, bind, Option.bind, Option.pure_def, htri]
    set d1 := Real.arcsin (sun_pos.2.2 / vector_magnitude sun_pos) with hd1
    set d2 := Real.arcsin (moon_pos.2.2 / vector_magnitude moon_pos) with hd2
    set Δ := (atan2 sun_pos.2.1 sun_pos.1 * (180 / π) -
      atan2 moon_pos.2.1 moon_pos.1 * (180 / π)) * (π / 180) with hΔ
    set cd := Real.sin d1 * Real.sin d2 + Real.cos d1 * Real.cos d2 * Real.cos Δ
      with hcd
    have hc1 : 0 ≤ Real.cos d1 := by
      rw [hd1, Real.cos_arcsin]
      positivity
    have hc2 : 0 ≤ Real.cos d2 := by
      rw [hd2, Real.cos_arcsin]
      positivity
    have hub : cd ≤ 1 := by
      have h1 : Real.cos d1 * Real.cos d2 * Real.cos Δ ≤ Real.cos d1 * Real.cos d2 :=
        mul_le_of_le_one_right (mul_nonneg hc1 hc2) (Real.cos_le_one _)
      have h2 : Real.cos (d1 - d2) = Real.cos d1 * Real.cos d2 +
          Real.sin d1 * Real.sin d2 := Real.cos_sub d1 d2
      have h3 := Real.cos_le_one (d1 - d2)
      rw [hcd]
      linarith
    have hlb : -1 ≤ cd := by
      have h1 : Real.cos d1 * Real.cos d2 * (-1) ≤
          Real.cos d1 * Real.cos d2 * Real.cos Δ :=
        mul_le_mul_of_nonneg_left (Real.neg_one_le_cos _) (mul_nonneg hc1 hc2)
      have h2 : Real.cos (d1 + d2) = Real.cos d1 * Real.cos d2 -
          Real.sin d1 * Real.sin d2 := Real.cos_add d1 d2
      have h3 := Real.cos_le_one (d1 + d2)
      rw [hcd]
      linarith
    have habscd : |cd| ≤ 1 := abs_le.mpr ⟨hlb, hub⟩
    simp only [facos, habscd, if_true, ite_true, Option.some_bind]
    refine ⟨(1 - Real.cos (Real.arccos cd)) / 2, rfl, ?_, ?_⟩
    · rw [Real.cos_arccos hlb hub]
      linarith
    · rw [Real.cos_arccos hlb hub]
      linarith

/-- Witness for the amended C8 claim at concrete inputs: target (1,0,0),
body (0,1,0), observer at the origin for the separation bounds, and
sun (1,0,0), moon (0,0,1) for the illumination bounds. -/
theorem moon_illumination_amended_witness :
    (0 ≤ calculate_angular_separation (1, 0, 0) (0, 1, 0) (0, 0, 0) ∧
      calculate_angular_separation (1, 0, 0) (0, 1, 0) (0, 0, 0) ≤ 180) ∧
    ∃ v, calculate_moon_illumination (1, 0, 0) (0, 0, 1) = some v ∧
      0 ≤ v ∧ v ≤ 1 := by
  have hsmag : vector_magnitude ((1 : ℝ), (0 : ℝ), (0 : ℝ)) ≠ 0 := by
    unfold vector_magnitude
    simp
  have hmmag : vector_magnitude ((0 : ℝ), (0 : ℝ), (1 : ℝ)) ≠ 0 := by
    unfold vector_magnitude
    simp
  exact ⟨moon_illumination_amended.1 (1, 0, 0) (0, 1, 0) (0, 0, 0),
    moon_illumination_amended.2 (1, 0, 0) (0, 0, 1) hsmag hmmag⟩
